import Mathlib

/-!
# cbfs client: command dispatch and configuration read-modify-write

A shallow embedding of the Go sources

* `cbfsclient/cbfsclient.go` (command registry, `flag.Usage`, `main`, and the
  direct-store `getconf` / `setconf` handlers),
* `cbfsclient/conf.go` (the HTTP `getconf` / `setconf` handlers),
* `client/conf.go` (`Client.GetConfig`, `Client.SetConfigParam`),

followed by theorems about them.

Effects are made explicit.  A Go procedure becomes a value of `Proc α`: the
list of observable events it produced, together with either its return value
or the way the process stopped (`os.Exit`, a run-time panic).  Everything the
program obtains from outside (the standard library, the network, the backing
store, the Go run-time's map iteration order) is a field of `World`.
-/

namespace Cbfs

/-! ## Data model -/

/-- A non-nil Go `error` value, identified with the text that `%v` prints. -/
structure Err where
  msg : String
deriving DecidableEq, Repr

/-- A connected `*couchbase.Bucket`. The Go `nil` pointer is `none : Option Bucket`. -/
structure Bucket where
  handle : Nat
deriving DecidableEq, Repr

/-- Modelled from the spec: the type `cbfsconfig.CBFSConfig` is declared in the
`config` package, which is not among the sources.  The fields are the twelve
the handlers assign to, with the types of the key table of the spec
(a `time.Duration` is a count of nanoseconds). -/
structure CBFSConfig where
  GCFreq : Int
  GCLimit : Int
  Hash : String
  HeartbeatFreq : Int
  MinReplicas : Int
  MaxReplicas : Int
  NodeCleanCount : Int
  ReconcileFreq : Int
  StaleNodeCheckFreq : Int
  StaleNodeLimit : Int
  UnderReplicaCheckFreq : Int
  OverReplicaCheckFreq : Int
deriving DecidableEq, Repr

/-- The part of an `*http.Response` the sources look at. -/
structure Response where
  StatusCode : Int
  Status : String
  Body : String
deriving DecidableEq, Repr

/-- The part of an `*http.Request` the sources build. -/
structure Request where
  method : String
  url : String
  body : String
  header : List (String × String)
deriving DecidableEq, Repr

/-- The five functions the registry refers to by name. -/
inductive Handler where
  | uploadCommand
  | lsCommand
  | rmCommand
  | getConfCommand
  | setConfCommand
deriving DecidableEq, Repr

/-- The anonymous struct type of the values of `commands`. -/
structure Command where
  nargs : Int
  f : Handler
  argstr : String
deriving DecidableEq, Repr

/-- The package-level flags of `cbfsclient.go`, after `flag.Parse`. -/
structure Flags where
  workers : Int
  couchbaseServer : String
  couchbaseBucket : String
  revs : Int
deriving DecidableEq, Repr

/-- The flag values when no flag is given on the command line. -/
def Flags.default : Flags :=
  { workers := 4, couchbaseServer := "", couchbaseBucket := "default", revs := 0 }

/-! ## Effects -/

/-- Observable actions, in program order. -/
inductive Event where
  | stderr (s : String)
  | log (s : String)
  | dump (conf : CBFSConfig)
  | retrieveConfig (b : Bucket)
  | storeConfig (b : Bucket) (conf : CBFSConfig)
  | httpGet (url : String)
  | httpDo (req : Request)
  | call (h : Handler) (args : List String)
deriving DecidableEq, Repr

/-- How a process stops other than by returning. -/
inductive Halt where
  | exit (code : Nat)
  | panic (msg : String)
deriving DecidableEq, Repr

/-- A Go procedure returning `α`: the events it produced and how it ended. -/
structure Proc (α : Type) where
  trace : List Event
  result : Except Halt α

namespace Proc

/-- Return without any effect. -/
def ret {α : Type} (a : α) : Proc α := ⟨[], .ok a⟩

/-- Sequencing: a halted procedure runs nothing further. -/
def andThen {α β : Type} (p : Proc α) (k : α → Proc β) : Proc β :=
  match p.result with
  | .error h => ⟨p.trace, .error h⟩
  | .ok a => ⟨p.trace ++ (k a).trace, (k a).result⟩

instance : Monad Proc where
  pure := ret
  bind := andThen

/-- Produce one event. -/
def emit (e : Event) : Proc Unit := ⟨[e], .ok ()⟩

/-- Stop the process. -/
def halt {α : Type} (h : Halt) : Proc α := ⟨[], .error h⟩

end Proc

open Proc

/-- The Go call `os.Exit(code)`. -/
def osExit {α : Type} (code : Nat) : Proc α := halt (.exit code)

/-- The Go call `fmt.Fprintf(os.Stderr, ...)`, with the formatted text. -/
def fprintStderr (s : String) : Proc Unit := emit (.stderr s)

/-- The Go call `log.Printf`, with the formatted text (no time stamp). -/
def logPrintf (s : String) : Proc Unit := emit (.log s)

/-- The Go call `log.Fatalf`: print, then `os.Exit(1)`. -/
def logFatalf {α : Type} (s : String) : Proc α := do
  logPrintf s
  osExit 1

/-- The index expression `args[i]` on a slice: a run-time panic when out of range. -/
def index (args : List String) (i : Nat) : Proc String :=
  match args[i]? with
  | some a => pure a
  | none => halt (.panic "index out of range")

/-- A `for ... range` loop over a list of items. -/
def forEach {α : Type} : List α → (α → Proc Unit) → Proc Unit
  | [], _ => pure ()
  | a :: as, body => do
    body a
    forEach as body

/-! ## The registry -/

/-- The map literal `commands` of `cbfsclient.go`; a Go map has distinct keys, and
`commands[name]` is `List.lookup name commands`. -/
def commands : List (String × Command) :=
  [ ("upload", ⟨-2, .uploadCommand, "[opts] /src/dir http://cbfs:8484/path/"⟩),
    ("ls", ⟨1, .lsCommand, "http://cbfs:8484/some/path"⟩),
    ("rm", ⟨-1, .rmCommand, "[-r] [-v] http://cbfs:8484/some/path"⟩),
    ("getconf", ⟨0, .getConfCommand, ""⟩),
    ("setconf", ⟨2, .setConfCommand, "prop value"⟩) ]

/-- Everything the program takes from outside itself. -/
structure World where
  /-- The value of `os.Args[0]`. -/
  progName : String
  /-- What `flag.PrintDefaults` writes. -/
  flagDefaults : String
  /-- The order in which the run-time visits `commands` in a `range` loop. -/
  rangeCommands : List (String × Command)
  /-- A `range` loop visits every entry of the map once. -/
  rangeCommands_perm : rangeCommands.Perm commands
  /-- The library call `couchbase.GetBucket`. -/
  GetBucket : String → String → String → Except Err Bucket
  /-- The function `cbfsconfig.DefaultConfig` (config package, not in the sources). -/
  DefaultConfig : CBFSConfig
  /-- The method `RetrieveConfig`: the receiver after the call, and the error. -/
  RetrieveConfig : Bucket → CBFSConfig → CBFSConfig × Option Err
  /-- The method `StoreConfig`: the error. -/
  StoreConfig : Bucket → CBFSConfig → Option Err
  /-- The library call `time.ParseDuration`. -/
  ParseDuration : String → Except Err Int
  /-- The library call `strconv.Atoi`. -/
  Atoi : String → Except Err Int
  /-- The library calls `url.Parse`, then setting `Path`, then `String`. -/
  urlWithPath : String → String → Except Err String
  /-- The library call `http.Get`. -/
  httpGet : String → Except Err Response
  /-- Decoding a JSON body into the zero value `cbfsconfig.CBFSConfig{}`. -/
  jsonDecode : String → Except Err CBFSConfig
  /-- The library call `json.Marshal` on a `CBFSConfig`. -/
  jsonMarshal : CBFSConfig → Except Err String
  /-- The library call `http.NewRequest` (method, url, body). -/
  newRequest : String → String → String → Except Err Request
  /-- The library call `http.DefaultClient.Do`. -/
  httpDo : Request → Except Err Response
  /-- The library call `httputil.HTTPError`, which builds an error from a response. -/
  HTTPError : Response → Err
  /-- The method `Client.URLFor` of the client package (not in the sources). -/
  URLFor : String → String
  /-- The function `getJsonData` of the client package (not in the sources), on the
  zero value of `CBFSConfig`: the value after the call, and the error. -/
  getJsonData : String → CBFSConfig × Option Err
  /-- The handlers `uploadCommand`, `lsCommand`, `rmCommand` (not in the sources). -/
  fileCommand : Handler → List String → Proc Unit

/-! ## `cbfsclient.go` -/

/-- The lines `flag.Usage` prints for the entries of the registry, visited in
the given order. -/
def usageLines (order : List (String × Command)) : List String :=
  order.map fun kv => "  " ++ kv.1 ++ " " ++ kv.2.argstr ++ "\n"

/-- The function assigned to `flag.Usage` in `init`. -/
def Usage {α : Type} (w : World) : Proc α := do
  fprintStderr ("Usage of " ++ w.progName ++ " [-flags] cmd cmdargs\n")
  fprintStderr "\nCommands:\n"
  forEach w.rangeCommands fun kv =>
    fprintStderr ("  " ++ kv.1 ++ " " ++ kv.2.argstr ++ "\n")
  fprintStderr "\nFlags:\n"
  fprintStderr w.flagDefaults
  osExit 1

/-- The call `flag.Arg(i)`: the empty string when there is no such argument. -/
def flagArg (args : List String) (i : Nat) : String := args.getD i ""

/-- The call `cmd.f(args)`: which function a handler name is bound to is the
parameter `impl`, since both `cbfsclient.go` and `conf.go` define
`getConfCommand` and `setConfCommand`. -/
def invoke (impl : Handler → Option Bucket → List String → Proc Unit)
    (h : Handler) (cb : Option Bucket) (args : List String) : Proc Unit := do
  emit (.call h args)
  impl h cb args

/-- The function `main`, after `flag.Parse` has split the command line into
the flags `fl` and the remaining arguments `args` (`flag.Args()`). -/
def main (w : World) (impl : Handler → Option Bucket → List String → Proc Unit)
    (fl : Flags) (args : List String) : Proc Unit := do
  if args.length < 1 then
    Usage w
  let cb ←
    if fl.couchbaseServer ≠ "" then
      match w.GetBucket fl.couchbaseServer "default" fl.couchbaseBucket with
      | .error e => logFatalf ("Error connecting to couchbase: " ++ e.msg)
      | .ok b => pure (some b)
    else pure none
  let cmdName := flagArg args 0
  let some cmd := commands.lookup cmdName
    | do fprintStderr ("Unknown command: " ++ cmdName ++ "\n")
         Usage w
  if cmd.nargs < 0 then
    let reqargs := -cmd.nargs
    if (args.length : Int) - 1 < reqargs then
      fprintStderr ("Incorrect arguments for " ++ cmdName ++ "\n")
      Usage w
  else
    if (args.length : Int) - 1 ≠ cmd.nargs then
      fprintStderr ("Incorrect arguments for " ++ cmdName ++ "\n")
      Usage w
  invoke impl cmd.f cb (args.drop 1)

/-- The function `parseDuration`. -/
def parseDuration (w : World) (s : String) : Proc Int :=
  match w.ParseDuration s with
  | .error e => logFatalf ("Unable to parse duration: " ++ e.msg)
  | .ok d => pure d

/-- The function `parseInt`. -/
def parseInt (w : World) (s : String) : Proc Int :=
  match w.Atoi s with
  | .error e => logFatalf ("Error parsing int: " ++ e.msg)
  | .ok i => pure i

namespace Direct

/-- The function `getConfCommand` of `cbfsclient.go`; `cb` is the package variable. -/
def getConfCommand (w : World) (cb : Option Bucket) (_args : List String) : Proc Unit := do
  let some b := cb
    | logFatalf "No couchbase bucket specified"
  let conf := w.DefaultConfig
  emit (.retrieveConfig b)
  let (conf, err) := w.RetrieveConfig b conf
  if let some e := err then
    logPrintf ("Error getting config: " ++ e.msg)
    logPrintf "Using default, as shown below:"
  emit (.dump conf)

/-- The `switch args[0]` statement of `setConfCommand` in `cbfsclient.go`: the
document after the selected assignment. -/
def setConfSwitch (w : World) (conf : CBFSConfig) (args : List String) : Proc CBFSConfig := do
  let key ← index args 0
  if key = "gcfreq" then
    let d ← parseDuration w (← index args 1)
    pure { conf with GCFreq := d }
  else if key = "gclimit" then
    let i ← parseInt w (← index args 1)
    pure { conf with GCLimit := i }
  else if key = "hash" then
    let s ← index args 1
    pure { conf with Hash := s }
  else if key = "hbfreq" then
    let d ← parseDuration w (← index args 1)
    pure { conf with HeartbeatFreq := d }
  else if key = "minrepl" then
    let i ← parseInt w (← index args 1)
    pure { conf with MinReplicas := i }
  else if key = "maxrepl" then
    let i ← parseInt w (← index args 1)
    pure { conf with MaxReplicas := i }
  else if key = "cleanCount" then
    let i ← parseInt w (← index args 1)
    pure { conf with NodeCleanCount := i }
  else if key = "reconcileFreq" then
    let d ← parseDuration w (← index args 1)
    pure { conf with ReconcileFreq := d }
  else if key = "nodeCheckFreq" then
    let d ← parseDuration w (← index args 1)
    pure { conf with StaleNodeCheckFreq := d }
  else if key = "staleLimit" then
    let d ← parseDuration w (← index args 1)
    pure { conf with StaleNodeLimit := d }
  else if key = "underReplicaCheckFreq" then
    let d ← parseDuration w (← index args 1)
    pure { conf with UnderReplicaCheckFreq := d }
  else if key = "overReplicaCheckFreq" then
    let d ← parseDuration w (← index args 1)
    pure { conf with OverReplicaCheckFreq := d }
  else
    logFatalf ("Unhandled property: " ++ key ++ " (try running getconf)")

/-- The function `setConfCommand` of `cbfsclient.go`; `cb` is the package variable. -/
def setConfCommand (w : World) (cb : Option Bucket) (args : List String) : Proc Unit := do
  let some b := cb
    | logFatalf "No couchbase bucket specified"
  let conf := w.DefaultConfig
  emit (.retrieveConfig b)
  let (conf, err) := w.RetrieveConfig b conf
  if let some e := err then
    logPrintf ("Error getting config: " ++ e.msg ++ ", using default")
  let conf ← setConfSwitch w conf args
  emit (.storeConfig b conf)
  if let some e := w.StoreConfig b conf then
    logFatalf ("Error updating config: " ++ e.msg)

/-- The handlers as `cbfsclient.go` binds them. -/
def impl (w : World) : Handler → Option Bucket → List String → Proc Unit
  | .getConfCommand, cb, args => getConfCommand w cb args
  | .setConfCommand, cb, args => setConfCommand w cb args
  | h, _, args => w.fileCommand h args

end Direct

/-! ## The configuration document's `SetParameter` -/

/-- A parsed parameter value: a duration, an integer or a string. -/
inductive Value where
  | duration (d : Int)
  | integer (i : Int)
  | text (s : String)
deriving DecidableEq, Repr

/-- The three field types of the key table. -/
inductive FieldType where
  | duration
  | integer
  | text
deriving DecidableEq, Repr

/-- Modelled from the spec: the key table of the configuration document
(config package, not in the sources), key and type of each field. -/
def keyTable : List (String × FieldType) :=
  [ ("gcfreq", .duration), ("gclimit", .integer), ("hash", .text), ("hbfreq", .duration),
    ("minrepl", .integer), ("maxrepl", .integer), ("cleanCount", .integer),
    ("reconcileFreq", .duration), ("nodeCheckFreq", .duration), ("staleLimit", .duration),
    ("underReplicaCheckFreq", .duration), ("overReplicaCheckFreq", .duration) ]

/-- Modelled from the spec: the field of the document a key of the table names
(config package, not in the sources); `none` for a key outside the table. -/
def CBFSConfig.field (c : CBFSConfig) (key : String) : Option Value :=
  if key = "gcfreq" then some (.duration c.GCFreq)
  else if key = "gclimit" then some (.integer c.GCLimit)
  else if key = "hash" then some (.text c.Hash)
  else if key = "hbfreq" then some (.duration c.HeartbeatFreq)
  else if key = "minrepl" then some (.integer c.MinReplicas)
  else if key = "maxrepl" then some (.integer c.MaxReplicas)
  else if key = "cleanCount" then some (.integer c.NodeCleanCount)
  else if key = "reconcileFreq" then some (.duration c.ReconcileFreq)
  else if key = "nodeCheckFreq" then some (.duration c.StaleNodeCheckFreq)
  else if key = "staleLimit" then some (.duration c.StaleNodeLimit)
  else if key = "underReplicaCheckFreq" then some (.duration c.UnderReplicaCheckFreq)
  else if key = "overReplicaCheckFreq" then some (.duration c.OverReplicaCheckFreq)
  else none

/-- Modelled from the spec: assigning a value to the field a key names (config
package, not in the sources); `none` when the key is outside the table or the
value is of another type than the field. -/
def CBFSConfig.setField (c : CBFSConfig) (key : String) (v : Value) : Option CBFSConfig :=
  match v with
  | .duration d =>
    if key = "gcfreq" then some { c with GCFreq := d }
    else if key = "hbfreq" then some { c with HeartbeatFreq := d }
    else if key = "reconcileFreq" then some { c with ReconcileFreq := d }
    else if key = "nodeCheckFreq" then some { c with StaleNodeCheckFreq := d }
    else if key = "staleLimit" then some { c with StaleNodeLimit := d }
    else if key = "underReplicaCheckFreq" then some { c with UnderReplicaCheckFreq := d }
    else if key = "overReplicaCheckFreq" then some { c with OverReplicaCheckFreq := d }
    else none
  | .integer i =>
    if key = "gclimit" then some { c with GCLimit := i }
    else if key = "minrepl" then some { c with MinReplicas := i }
    else if key = "maxrepl" then some { c with MaxReplicas := i }
    else if key = "cleanCount" then some { c with NodeCleanCount := i }
    else none
  | .text s =>
    if key = "hash" then some { c with Hash := s }
    else none

/-- Modelled from the spec: parsing a value "according to the field's type"
(duration strings, integers via base-10 parsing, strings passed through);
`none` when the key is outside the table or the value does not parse. -/
def parseValue (w : World) (key val : String) : Option Value :=
  match keyTable.lookup key with
  | none => none
  | some .duration =>
    match w.ParseDuration val with
    | .ok d => some (.duration d)
    | .error _ => none
  | some .integer =>
    match w.Atoi val with
    | .ok i => some (.integer i)
    | .error _ => none
  | some .text => some (.text val)

/-- Modelled from the spec: the method `CBFSConfig.SetParameter` (config package,
not in the sources).  An unknown key fails with an error naming the key, a
value that does not parse fails and leaves the document as it was, and
otherwise exactly the one field is assigned.  The result is the receiver
after the call and the error. -/
def SetParameter (w : World) (conf : CBFSConfig) (key val : String) : CBFSConfig × Option Err :=
  match keyTable.lookup key with
  | none => (conf, some ⟨"unknown parameter: " ++ key ++ " (try running getconf)"⟩)
  | some _ =>
    match parseValue w key val with
    | none => (conf, some ⟨"bad value: " ++ val⟩)
    | some v =>
      match conf.setField key v with
      | some conf2 => (conf2, none)
      | none => (conf, some ⟨"bad value: " ++ val⟩)

/-! ## `cbfsclient/conf.go` -/

/-- The Go idiom `v, err := f(...); if err != nil { log.Fatalf(text, err) }`,
with the text up to the `%v` that prints the error. -/
def orFatalf {α : Type} (text : String) : Except Err α → Proc α
  | .error e => logFatalf (text ++ e.msg)
  | .ok a => pure a

namespace Http

/-- The function `getConfURL`. -/
def getConfURL (w : World) (uin : String) : Proc String :=
  orFatalf "Error parsing URL: " (w.urlWithPath uin "/.cbfs/config/")

/-- The function `getConfig`. -/
def getConfig (w : World) (u : String) : Proc CBFSConfig := do
  let url ← getConfURL w u
  emit (.httpGet url)
  let res ← orFatalf "Error making HTTP connection: " (w.httpGet url)
  let conf ← orFatalf "Error parsing response: " (w.jsonDecode res.Body)
  pure conf

/-- The function `getConfCommand` of `conf.go`. -/
def getConfCommand (w : World) (args : List String) : Proc Unit := do
  let conf ← getConfig w (← index args 0)
  emit (.dump conf)

/-- The function `setConfCommand` of `conf.go`. -/
def setConfCommand (w : World) (args : List String) : Proc Unit := do
  let conf ← getConfig w (← index args 0)
  let key ← index args 1
  let val ← index args 2
  let (conf, err) := SetParameter w conf key val
  if err.isSome then
    logFatalf ("Unhandled property: " ++ key ++ " (try running getconf)")
  let data ← orFatalf "Can't marshal config: " (w.jsonMarshal conf)
  let url ← getConfURL w (← index args 0)
  let req ← orFatalf "Can't build request: " (w.newRequest "PUT" url data)
  let req := { req with header := ("Content-Type", "application/json") :: req.header }
  emit (.httpDo req)
  let res ← orFatalf "Can't establish http connection: " (w.httpDo req)
  if res.StatusCode ≠ 204 then
    logPrintf ("HTTP error:  " ++ res.Status)
    fprintStderr res.Body
    osExit 1

end Http

/-! ## `client/conf.go` -/

namespace Client

/-- The method `Client.confURL`. -/
def confURL (w : World) : String := w.URLFor ".cbfs/config/"

/-- The method `Client.GetConfig`: the named results `rv` and `err`. -/
def GetConfig (w : World) : Proc (CBFSConfig × Option Err) := do
  emit (.httpGet (confURL w))
  pure (w.getJsonData (confURL w))

/-- The method `Client.SetConfigParam`: the returned `error` (`none` is `nil`). -/
def SetConfigParam (w : World) (key val : String) : Proc (Option Err) := do
  let (conf, err) ← GetConfig w
  match err with
  | some e => pure (some e)
  | none =>
    let (conf, err) := SetParameter w conf key val
    match err with
    | some e => pure (some e)
    | none =>
      match w.jsonMarshal conf with
      | .error e => pure (some e)
      | .ok data =>
        match w.newRequest "PUT" (confURL w) data with
        | .error e => pure (some e)
        | .ok req =>
          let req := { req with header := ("Content-Type", "application/json") :: req.header }
          do
            emit (.httpDo req)
            match w.httpDo req with
            | .error e => pure (some e)
            | .ok res =>
              if res.StatusCode ≠ 204 then
                pure (some (w.HTTPError res))
              else
                pure none

end Client

/-! ## Definitions used to state the properties -/

/-- The arity rule in the words of the spec: a nonnegative arity is an exact
count, a negative arity is minus a minimum count. -/
def arityAccepts (n : Int) (k : Nat) : Prop :=
  (0 ≤ n ∧ (k : Int) = n) ∨ (n < 0 ∧ -n ≤ (k : Int))

instance (n : Int) (k : Nat) : Decidable (arityAccepts n k) := by
  unfold arityAccepts
  infer_instance

/-- What `main` does on an argument count the arity rule refuses. -/
def incorrectArguments (w : World) (cmdName : String) : Proc Unit := do
  fprintStderr ("Incorrect arguments for " ++ cmdName ++ "\n")
  Usage w

/-- What `main` does on a name that is not in the registry. -/
def unknownCommand (w : World) (cmdName : String) : Proc Unit := do
  fprintStderr ("Unknown command: " ++ cmdName ++ "\n")
  Usage w

/-- The connection step of `main` went through: no server was named, or
`couchbase.GetBucket` returned the bucket `cb`. -/
def Connected (w : World) (fl : Flags) (cb : Option Bucket) : Prop :=
  (fl.couchbaseServer = "" ∧ cb = none) ∨
  (fl.couchbaseServer ≠ "" ∧ ∃ b, cb = some b ∧
    w.GetBucket fl.couchbaseServer "default" fl.couchbaseBucket = .ok b)

/-- No handler was called. -/
def NoCall (t : List Event) : Prop := ∀ h args, Event.call h args ∉ t

/-- A handler was called on the given arguments. -/
def Invoked (t : List Event) (h : Handler) (args : List String) : Prop :=
  Event.call h args ∈ t

/-- The procedure called the handler and ran its body: a call event, then
everything the function bound to `h` does on `args` with the bucket `cb`,
ending as that function ends. -/
def RunsHandler (p : Proc Unit) (impl : Handler → Option Bucket → List String → Proc Unit)
    (h : Handler) (cb : Option Bucket) (args : List String) : Prop :=
  p.trace = Event.call h args :: (impl h cb args).trace ∧ p.result = (impl h cb args).result

/-- The usage listing was printed: the heading and the line of every entry visited. -/
def PrintsUsage (w : World) (t : List Event) : Prop :=
  Event.stderr "\nCommands:\n" ∈ t ∧ ∀ s ∈ usageLines w.rangeCommands, Event.stderr s ∈ t

/-- The procedure did not stop on a run-time panic. -/
def NoPanic {α : Type} (p : Proc α) : Prop := ∀ m, p.result ≠ .error (.panic m)

/-- No document was handed to `StoreConfig`. -/
def NoStore (t : List Event) : Prop := ∀ b c, Event.storeConfig b c ∉ t

/-- No request was handed to `http.DefaultClient.Do`. -/
def NoPut (t : List Event) : Prop := ∀ r, Event.httpDo r ∉ t

/-! ## A concrete world, for evaluating the definitions -/

/-- A sample `time.ParseDuration`, knowing a few duration strings. -/
def sampleParseDuration (s : String) : Except Err Int :=
  if s = "10m" then .ok 600000000000
  else if s = "5s" then .ok 5000000000
  else if s = "1h" then .ok 3600000000000
  else .error ⟨"time: invalid duration " ++ s⟩

/-- A sample `strconv.Atoi`, knowing a few integers. -/
def sampleAtoi (s : String) : Except Err Int :=
  if s = "0" then .ok 0
  else if s = "3" then .ok 3
  else if s = "100" then .ok 100
  else if s = "-1" then .ok (-1)
  else .error ⟨"strconv.Atoi: parsing " ++ s ++ ": invalid syntax"⟩

/-- A sample default document. -/
def sampleDefault : CBFSConfig :=
  { GCFreq := 28800000000000, GCLimit := 5000, Hash := "sha1", HeartbeatFreq := 5000000000,
    MinReplicas := 3, MaxReplicas := 5, NodeCleanCount := 5000,
    ReconcileFreq := 86400000000000, StaleNodeCheckFreq := 60000000000,
    StaleNodeLimit := 600000000000, UnderReplicaCheckFreq := 300000000000,
    OverReplicaCheckFreq := 60000000000 }

/-- A sample world: one reachable couchbase server with an empty bucket, one
reachable cbfs node that answers a `PUT` with 204, and a run-time that visits
the registry in the order it is written. -/
def sampleWorld : World where
  progName := "cbfsclient"
  flagDefaults := "  -bucket=\"default\": Couchbase bucket\n"
  rangeCommands := commands
  rangeCommands_perm := List.Perm.refl _
  GetBucket := fun server _ _ =>
    if server = "http://localhost:8091/" then .ok ⟨1⟩ else .error ⟨"connection refused"⟩
  DefaultConfig := sampleDefault
  RetrieveConfig := fun _ c => (c, some ⟨"not found"⟩)
  StoreConfig := fun _ _ => none
  ParseDuration := sampleParseDuration
  Atoi := sampleAtoi
  urlWithPath := fun u path =>
    if u = "http://cbfs:8484/" then .ok ("http://cbfs:8484" ++ path) else .error ⟨"bad url"⟩
  httpGet := fun _ => .ok ⟨200, "200 OK", "doc"⟩
  jsonDecode := fun _ => .ok sampleDefault
  jsonMarshal := fun _ => .ok "doc"
  newRequest := fun m u b => .ok ⟨m, u, b, []⟩
  httpDo := fun _ => .ok ⟨204, "204 No Content", ""⟩
  HTTPError := fun res => ⟨"HTTP Error: " ++ res.Status ++ " -- " ++ res.Body⟩
  URLFor := fun path => "http://cbfs:8484/" ++ path
  getJsonData := fun _ => (sampleDefault, none)
  fileCommand := fun _ _ => pure ()

/-- The sample world with a run-time that visits the registry in the opposite order. -/
def sampleWorldReversed : World :=
  { sampleWorld with
    rangeCommands := commands.reverse
    rangeCommands_perm := List.reverse_perm _ }

/-- The sample world with a cbfs node that answers a `PUT` with 500. -/
def sampleWorldFailing : World :=
  { sampleWorld with httpDo := fun _ => .ok ⟨500, "500 Internal Server Error", "disk full"⟩ }

/-- Flags naming the reachable couchbase server. -/
def sampleFlags : Flags := { Flags.default with couchbaseServer := "http://localhost:8091/" }

/-- Flags naming a couchbase server that cannot be reached. -/
def sampleFlagsUnreachable : Flags :=
  { Flags.default with couchbaseServer := "http://nowhere:8091/" }

/-! ## Sequencing lemmas -/

theorem Proc.bind_eq {α β : Type} (p : Proc α) (k : α → Proc β) :
    p >>= k = Proc.andThen p k := rfl

theorem Proc.pure_eq {α : Type} (a : α) : (pure a : Proc α) = Proc.ret a := rfl

@[simp] theorem Proc.ret_trace {α : Type} (a : α) : (Proc.ret a).trace = [] := rfl

@[simp] theorem Proc.ret_result {α : Type} (a : α) : (Proc.ret a).result = .ok a := rfl

@[simp] theorem Proc.andThen_error {α β : Type} (t : List Event) (h : Halt)
    (k : α → Proc β) : Proc.andThen ⟨t, .error h⟩ k = ⟨t, .error h⟩ := rfl

@[simp] theorem Proc.andThen_ok {α β : Type} (t : List Event) (a : α) (k : α → Proc β) :
    Proc.andThen ⟨t, .ok a⟩ k = ⟨t ++ (k a).trace, (k a).result⟩ := rfl

@[simp] theorem Proc.andThen_ret {α β : Type} (a : α) (k : α → Proc β) :
    Proc.andThen (Proc.ret a) k = k a := by
  simp [Proc.andThen, Proc.ret]

@[simp] theorem Proc.andThen_halt {α β : Type} (h : Halt) (k : α → Proc β) :
    Proc.andThen (Proc.halt h) k = Proc.halt h := by
  simp [Proc.andThen, Proc.halt]

@[simp] theorem Proc.andThen_emit {β : Type} (e : Event) (k : Unit → Proc β) :
    Proc.andThen (Proc.emit e) k = ⟨e :: (k ()).trace, (k ()).result⟩ := by
  simp [Proc.andThen, Proc.emit]

@[simp] theorem Proc.andThen_assoc {α β γ : Type} (p : Proc α) (k : α → Proc β)
    (j : β → Proc γ) :
    Proc.andThen (Proc.andThen p k) j = Proc.andThen p (fun a => Proc.andThen (k a) j) := by
  unfold Proc.andThen
  cases hp : p.result with
  | error h => simp
  | ok a =>
    simp only
    cases hk : (k a).result with
    | error h => simp
    | ok b => simp

/-- The events of a usage listing in the given visiting order. -/
theorem forEach_stderr_trace (l : List (String × Command)) :
    (forEach l fun kv => fprintStderr ("  " ++ kv.1 ++ " " ++ kv.2.argstr ++ "\n"))
      = ⟨(usageLines l).map Event.stderr, .ok ()⟩ := by
  induction l with
  | nil => rfl
  | cons a as ih =>
    rw [forEach, Proc.bind_eq, ih]
    simp [fprintStderr, usageLines]

/-- What `flag.Usage` does: the heading, one line for each command, the flag
defaults, and exit status 1. -/
theorem Usage_eq {α : Type} (w : World) :
    (Usage w : Proc α) =
      ⟨Event.stderr ("Usage of " ++ w.progName ++ " [-flags] cmd cmdargs\n")
          :: Event.stderr "\nCommands:\n"
          :: ((usageLines w.rangeCommands).map Event.stderr
              ++ [Event.stderr "\nFlags:\n", Event.stderr w.flagDefaults]),
        .error (.exit 1)⟩ := by
  unfold Usage
  simp only [Proc.bind_eq]
  rw [forEach_stderr_trace]
  simp [fprintStderr, osExit, Proc.andThen, Proc.halt, Proc.emit]

/-- Every event of a usage listing is a write to standard error. -/
theorem Usage_trace_stderr {α : Type} (w : World) (e : Event)
    (he : e ∈ (Usage w : Proc α).trace) : ∃ s, e = Event.stderr s := by
  rw [Usage_eq] at he
  simp only [List.mem_cons, List.mem_append, List.mem_map, List.mem_singleton,
    List.not_mem_nil, or_false] at he
  rcases he with h | h | ⟨s, _, h⟩ | h | h
  · exact ⟨_, h⟩
  · exact ⟨_, h⟩
  · exact ⟨s, h.symm⟩
  · exact ⟨_, h⟩
  · exact ⟨_, h⟩

/-- Nothing runs after `flag.Usage`: it ends the process. -/
theorem Usage_andThen {α β : Type} (w : World) (k : α → Proc β) :
    Proc.andThen (Usage w : Proc α) k = (Usage w : Proc β) := by
  rw [Usage_eq, Usage_eq]
  simp [Proc.andThen]

theorem logFatalf_andThen {α β : Type} (s : String) (k : α → Proc β) :
    Proc.andThen (logFatalf s : Proc α) k = (logFatalf s : Proc β) := by
  simp [logFatalf, Proc.bind_eq, logPrintf, osExit, Proc.andThen, Proc.halt, Proc.emit]

theorem logFatalf_eq {α : Type} (s : String) :
    (logFatalf s : Proc α) = ⟨[Event.log s], .error (.exit 1)⟩ := by
  simp [logFatalf, Proc.bind_eq, logPrintf, osExit, Proc.andThen, Proc.halt, Proc.emit]

theorem Usage_result {α : Type} (w : World) : (Usage w : Proc α).result = .error (.exit 1) := by
  rw [Usage_eq]

theorem incorrectArguments_result (w : World) (n : String) :
    (incorrectArguments w n).result = .error (.exit 1) := by
  simp [incorrectArguments, Proc.bind_eq, fprintStderr, Usage_result]

theorem incorrectArguments_noCall (w : World) (n : String) :
    NoCall (incorrectArguments w n).trace := by
  intro h args hmem
  simp only [incorrectArguments, Proc.bind_eq, fprintStderr, Proc.andThen_emit,
    List.mem_cons] at hmem
  rcases hmem with h1 | h1
  · cases h1
  · obtain ⟨s, hs⟩ := Usage_trace_stderr w _ h1
    cases hs

theorem Usage_printsUsage {α : Type} (w : World) :
    PrintsUsage w (Usage w : Proc α).trace := by
  rw [Usage_eq]
  refine ⟨by simp, ?_⟩
  intro s hs
  simp only [List.mem_cons, List.mem_append, List.mem_map]
  exact Or.inr (Or.inr (Or.inl ⟨s, hs, rfl⟩))

theorem incorrectArguments_printsUsage (w : World) (n : String) :
    PrintsUsage w (incorrectArguments w n).trace := by
  obtain ⟨h1, h2⟩ := @Usage_printsUsage Unit w
  simp only [incorrectArguments, Proc.bind_eq, fprintStderr, Proc.andThen_emit]
  exact ⟨List.mem_cons_of_mem _ h1, fun s hs => List.mem_cons_of_mem _ (h2 s hs)⟩

theorem unknownCommand_printsUsage (w : World) (n : String) :
    PrintsUsage w (unknownCommand w n).trace := by
  obtain ⟨h1, h2⟩ := @Usage_printsUsage Unit w
  simp only [unknownCommand, Proc.bind_eq, fprintStderr, Proc.andThen_emit]
  exact ⟨List.mem_cons_of_mem _ h1, fun s hs => List.mem_cons_of_mem _ (h2 s hs)⟩

theorem unknownCommand_result (w : World) (n : String) :
    (unknownCommand w n).result = .error (.exit 1) := by
  simp [unknownCommand, Proc.bind_eq, fprintStderr, Usage_result]

theorem unknownCommand_noCall (w : World) (n : String) :
    NoCall (unknownCommand w n).trace := by
  intro h args hmem
  simp only [unknownCommand, Proc.bind_eq, fprintStderr, Proc.andThen_emit,
    List.mem_cons] at hmem
  rcases hmem with h1 | h1
  · cases h1
  · obtain ⟨s, hs⟩ := Usage_trace_stderr w _ h1
    cases hs

/-- The function `main` on a registered command, once the connection step went through:
the arity test decides between the handler and the usage listing. -/
theorem main_registered (w : World) (impl : Handler → Option Bucket → List String → Proc Unit)
    (fl : Flags) (name : String) (cmd : Command) (rest : List String) (cb : Option Bucket)
    (hreg : commands.lookup name = some cmd) (hconn : Connected w fl cb) :
    main w impl fl (name :: rest) =
      if arityAccepts cmd.nargs rest.length then invoke impl cmd.f cb rest
      else incorrectArguments w name := by
  have hcmd : main w impl fl (name :: rest) =
      (if cmd.nargs < 0 then
        (if ((name :: rest).length : Int) - 1 < -cmd.nargs then incorrectArguments w name
         else invoke impl cmd.f cb rest)
       else
        (if ((name :: rest).length : Int) - 1 ≠ cmd.nargs then incorrectArguments w name
         else invoke impl cmd.f cb rest)) := by
    unfold main
    rcases hconn with ⟨h0, rfl⟩ | ⟨h0, b, rfl, hb⟩
    · simp [h0, hreg, flagArg, Proc.bind_eq, Proc.pure_eq, incorrectArguments, Usage_andThen]
    · simp [h0, hb, hreg, flagArg, Proc.bind_eq, Proc.pure_eq, incorrectArguments,
        Usage_andThen]
  rw [hcmd]
  unfold arityAccepts
  simp only [List.length_cons, Nat.cast_add, Nat.cast_one, add_sub_cancel_right]
  by_cases hn : cmd.nargs < 0
  · have h1 : ¬ (0 ≤ cmd.nargs) := by omega
    by_cases h2 : (rest.length : Int) < -cmd.nargs
    · have h3 : ¬ (-cmd.nargs ≤ (rest.length : Int)) := by omega
      simp [hn, h1, h2, h3]
    · have h3 : -cmd.nargs ≤ (rest.length : Int) := by omega
      simp [hn, h1, h2, h3]
  · have h1 : 0 ≤ cmd.nargs := by omega
    by_cases h2 : (rest.length : Int) = cmd.nargs
    · simp [hn, h1, h2]
    · simp [hn, h1, h2]

/-- A handler call puts its call event first. -/
theorem invoke_trace (impl : Handler → Option Bucket → List String → Proc Unit)
    (h : Handler) (cb : Option Bucket) (args : List String) :
    (invoke impl h cb args).trace = Event.call h args :: (impl h cb args).trace := by
  simp [invoke, Proc.bind_eq]

/-- The function `main` without arguments prints the usage listing, before anything else. -/
theorem main_nil (w : World) (impl : Handler → Option Bucket → List String → Proc Unit)
    (fl : Flags) : main w impl fl [] = Usage w := by
  unfold main
  simp [Proc.bind_eq, Usage_andThen]

/-- The function `main` on a name outside the registry, once the connection step went through. -/
theorem main_unregistered (w : World)
    (impl : Handler → Option Bucket → List String → Proc Unit)
    (fl : Flags) (name : String) (rest : List String) (cb : Option Bucket)
    (hreg : commands.lookup name = none) (hconn : Connected w fl cb) :
    main w impl fl (name :: rest) = unknownCommand w name := by
  unfold main
  rcases hconn with ⟨h0, rfl⟩ | ⟨h0, b, rfl, hb⟩
  · simp [h0, hreg, flagArg, Proc.bind_eq, Proc.pure_eq, unknownCommand, Usage_andThen]
  · simp [h0, hb, hreg, flagArg, Proc.bind_eq, Proc.pure_eq, unknownCommand, Usage_andThen]

/-- The function `main` with arguments, when the named couchbase server cannot be
reached: the fatal error comes before the command is looked up. -/
theorem main_unreachable (w : World)
    (impl : Handler → Option Bucket → List String → Proc Unit)
    (fl : Flags) (name : String) (rest : List String) (e : Err)
    (hs : fl.couchbaseServer ≠ "")
    (hb : w.GetBucket fl.couchbaseServer "default" fl.couchbaseBucket = .error e) :
    main w impl fl (name :: rest) = logFatalf ("Error connecting to couchbase: " ++ e.msg) := by
  unfold main
  simp [hs, hb, Proc.bind_eq, Proc.pure_eq, logFatalf_andThen]

/-- The connection step either goes through or fails. -/
theorem connected_or_unreachable (w : World) (fl : Flags) :
    (∃ cb, Connected w fl cb) ∨
    (fl.couchbaseServer ≠ "" ∧
      ∃ e, w.GetBucket fl.couchbaseServer "default" fl.couchbaseBucket = .error e) := by
  by_cases hs : fl.couchbaseServer = ""
  · exact Or.inl ⟨none, Or.inl ⟨hs, rfl⟩⟩
  · cases hb : w.GetBucket fl.couchbaseServer "default" fl.couchbaseBucket with
    | error e => exact Or.inr ⟨hs, e, rfl⟩
    | ok b => exact Or.inl ⟨some b, Or.inr ⟨hs, b, rfl, hb⟩⟩

theorem logFatalf_noCall {α : Type} (s : String) : NoCall (logFatalf s : Proc α).trace := by
  intro h args hmem
  rw [logFatalf_eq] at hmem
  simp at hmem

theorem Usage_noCall {α : Type} (w : World) : NoCall (Usage w : Proc α).trace := by
  intro h args hmem
  obtain ⟨s, hs⟩ := Usage_trace_stderr w _ hmem
  cases hs

/-- On a registered command, once the connection step went through, the handler
is called iff the arity rule accepts the argument count. -/
theorem main_invoked_iff (w : World)
    (impl : Handler → Option Bucket → List String → Proc Unit)
    (fl : Flags) (name : String) (cmd : Command) (rest : List String) (cb : Option Bucket)
    (hreg : commands.lookup name = some cmd) (hconn : Connected w fl cb) :
    Invoked (main w impl fl (name :: rest)).trace cmd.f rest ↔
      arityAccepts cmd.nargs rest.length := by
  rw [main_registered w impl fl name cmd rest cb hreg hconn]
  by_cases ha : arityAccepts cmd.nargs rest.length
  · simp [ha, Invoked, invoke_trace]
  · simp only [ha, if_false, iff_false]
    exact incorrectArguments_noCall w name _ _

/-- Looking a key up skips an entry with another key. -/
theorem lookup_cons_of_ne {β : Type} (k a : String) (b : β) (l : List (String × β))
    (h : ¬ k = a) : List.lookup k ((a, b) :: l) = List.lookup k l := by
  have e : (k == a) = false := by simpa using h
  simp [List.lookup, e]

/-- The keys of the registry. -/
theorem commands_lookup_isSome (name : String) :
    (∃ cmd, commands.lookup name = some cmd) ↔
      name = "upload" ∨ name = "ls" ∨ name = "rm" ∨ name = "getconf" ∨ name = "setconf" := by
  by_cases h1 : name = "upload"
  · subst h1; simp [commands, List.lookup]
  by_cases h2 : name = "ls"
  · subst h2; simp [commands, List.lookup]
  by_cases h3 : name = "rm"
  · subst h3; simp [commands, List.lookup]
  by_cases h4 : name = "getconf"
  · subst h4; simp [commands, List.lookup]
  by_cases h5 : name = "setconf"
  · subst h5; simp [commands, List.lookup]
  simp [commands, lookup_cons_of_ne, h1, h2, h3, h4, h5]

/-! ## Dispatch -/

/-- C4 (amended): when the argument vector is empty or its first token is not
a key of the registry, `main` exits with status 1 and calls no handler.  It
prints the usage listing when the vector is empty, and also when the
connection step went through (no couchbase server named, or the bucket was
obtained).  When a server is named and cannot be reached, a non-empty
vector meets the fatal connection error before the command is looked up. -/
theorem main_unknown_or_missing (w : World)
    (impl : Handler → Option Bucket → List String → Proc Unit)
    (fl : Flags) (args : List String)
    (h : args = [] ∨ ∃ name rest, args = name :: rest ∧ commands.lookup name = none) :
    (main w impl fl args).result = .error (.exit 1) ∧
    NoCall (main w impl fl args).trace ∧
    ((args = [] ∨ ∃ cb, Connected w fl cb) → PrintsUsage w (main w impl fl args).trace) ∧
    (∀ e, args ≠ [] → fl.couchbaseServer ≠ "" →
      w.GetBucket fl.couchbaseServer "default" fl.couchbaseBucket = .error e →
      main w impl fl args = logFatalf ("Error connecting to couchbase: " ++ e.msg)) := by
  rcases h with rfl | ⟨name, rest, rfl, hreg⟩
  · rw [main_nil]
    refine ⟨Usage_result w, Usage_noCall w, fun _ => Usage_printsUsage w, ?_⟩
    intro e hne
    exact absurd rfl hne
  · have hfatal : ∀ e, fl.couchbaseServer ≠ "" →
        w.GetBucket fl.couchbaseServer "default" fl.couchbaseBucket = .error e →
        main w impl fl (name :: rest) =
          logFatalf ("Error connecting to couchbase: " ++ e.msg) :=
      fun e hs hb => main_unreachable w impl fl name rest e hs hb
    refine ⟨?_, ?_, ?_, fun e _ hs hb => hfatal e hs hb⟩
    · rcases connected_or_unreachable w fl with ⟨cb, hc⟩ | ⟨hs, e, hb⟩
      · rw [main_unregistered w impl fl name rest cb hreg hc]
        exact unknownCommand_result w name
      · rw [hfatal e hs hb, logFatalf_eq]
    · rcases connected_or_unreachable w fl with ⟨cb, hc⟩ | ⟨hs, e, hb⟩
      · rw [main_unregistered w impl fl name rest cb hreg hc]
        exact unknownCommand_noCall w name
      · rw [hfatal e hs hb]
        exact logFatalf_noCall _
    · intro hc
      rcases hc with hnil | ⟨cb, hc⟩
      · cases hnil
      · rw [main_unregistered w impl fl name rest cb hreg hc]
        exact unknownCommand_printsUsage w name

/-- The hypothesis of `main_unknown_or_missing` holds for the single argument
`bogus`, and `main` exits with status 1. -/
theorem main_unknown_or_missing_witness :
    commands.lookup "bogus" = none ∧
    (main sampleWorld (Direct.impl sampleWorld) Flags.default ["bogus"]).result
      = .error (.exit 1) :=
  have hreg : commands.lookup "bogus" = none := by decide
  ⟨hreg, (main_unknown_or_missing sampleWorld (Direct.impl sampleWorld) Flags.default
      ["bogus"] (Or.inr ⟨"bogus", [], rfl, hreg⟩)).1⟩

/-- C4 as stated fails: `bogus` is not a key of the registry, yet with a
couchbase server named that cannot be reached `main` prints the connection
error only, not the usage listing. -/
theorem main_unknown_counterexample :
    commands.lookup "bogus" = none ∧
    main sampleWorld (Direct.impl sampleWorld) sampleFlagsUnreachable ["bogus"] =
      ⟨[Event.log "Error connecting to couchbase: connection refused"],
        .error (.exit 1)⟩ ∧
    ¬ PrintsUsage sampleWorld
      (main sampleWorld (Direct.impl sampleWorld) sampleFlagsUnreachable ["bogus"]).trace := by
  have hmain : main sampleWorld (Direct.impl sampleWorld) sampleFlagsUnreachable ["bogus"] =
      ⟨[Event.log "Error connecting to couchbase: connection refused"],
        .error (.exit 1)⟩ := by
    rw [main_unreachable sampleWorld (Direct.impl sampleWorld) sampleFlagsUnreachable
      "bogus" [] ⟨"connection refused"⟩ (by decide) rfl, logFatalf_eq]
    rfl
  refine ⟨by decide, hmain, ?_⟩
  rw [hmain]
  intro hp
  have := hp.1
  simp at this

/-! ## The direct-store handlers -/

/-- A key is one of the twelve of the table, or none of them. -/
theorem key_cases (key : String) :
    key = "gcfreq" ∨ key = "gclimit" ∨ key = "hash" ∨ key = "hbfreq" ∨ key = "minrepl" ∨
    key = "maxrepl" ∨ key = "cleanCount" ∨ key = "reconcileFreq" ∨ key = "nodeCheckFreq" ∨
    key = "staleLimit" ∨ key = "underReplicaCheckFreq" ∨ key = "overReplicaCheckFreq" ∨
    keyTable.lookup key = none := by
  by_cases h1 : key = "gcfreq"
  · exact Or.inl h1
  by_cases h2 : key = "gclimit"
  · simp [h2]
  by_cases h3 : key = "hash"
  · simp [h3]
  by_cases h4 : key = "hbfreq"
  · simp [h4]
  by_cases h5 : key = "minrepl"
  · simp [h5]
  by_cases h6 : key = "maxrepl"
  · simp [h6]
  by_cases h7 : key = "cleanCount"
  · simp [h7]
  by_cases h8 : key = "reconcileFreq"
  · simp [h8]
  by_cases h9 : key = "nodeCheckFreq"
  · simp [h9]
  by_cases h10 : key = "staleLimit"
  · simp [h10]
  by_cases h11 : key = "underReplicaCheckFreq"
  · simp [h11]
  by_cases h12 : key = "overReplicaCheckFreq"
  · simp [h12]
  simp [keyTable, lookup_cons_of_ne, h1, h2, h3, h4, h5, h6, h7, h8, h9, h10, h11, h12]

/-- A key outside the table differs from each of the twelve. -/
theorem lookup_none_ne (key : String) (h : keyTable.lookup key = none) :
    key ≠ "gcfreq" ∧ key ≠ "gclimit" ∧ key ≠ "hash" ∧ key ≠ "hbfreq" ∧ key ≠ "minrepl" ∧
    key ≠ "maxrepl" ∧ key ≠ "cleanCount" ∧ key ≠ "reconcileFreq" ∧ key ≠ "nodeCheckFreq" ∧
    key ≠ "staleLimit" ∧ key ≠ "underReplicaCheckFreq" ∧ key ≠ "overReplicaCheckFreq" := by
  refine ⟨?_, ?_, ?_, ?_, ?_, ?_, ?_, ?_, ?_, ?_, ?_, ?_⟩ <;>
  · rintro rfl
    simp [keyTable, List.lookup] at h

/-- The `switch` of the direct-store `setconf` on a key and a value that parse:
it returns the document with the field of the key assigned. -/
theorem setConfSwitch_ok (w : World) (conf : CBFSConfig) (key val : String) (v : Value)
    (hv : parseValue w key val = some v) :
    ∃ stored, conf.setField key v = some stored ∧
      Direct.setConfSwitch w conf [key, val] = Proc.ret stored := by
  rcases key_cases key with
    rfl | rfl | rfl | rfl | rfl | rfl | rfl | rfl | rfl | rfl | rfl | rfl | hnone
  case inr.inr.inr.inr.inr.inr.inr.inr.inr.inr.inr.inr =>
    simp [parseValue, hnone] at hv
  all_goals
    simp only [parseValue, keyTable, List.lookup] at hv
    simp at hv
  all_goals first
    | (cases hp : w.ParseDuration val with
        | error e => simp [hp] at hv
        | ok d =>
          simp [hp] at hv
          subst hv
          simp [CBFSConfig.setField, Direct.setConfSwitch, index, parseDuration, hp,
            Proc.bind_eq, Proc.pure_eq])
    | (cases hp : w.Atoi val with
        | error e => simp [hp] at hv
        | ok d =>
          simp [hp] at hv
          subst hv
          simp [CBFSConfig.setField, Direct.setConfSwitch, index, parseInt, hp,
            Proc.bind_eq, Proc.pure_eq])
    | (subst hv
       simp [CBFSConfig.setField, Direct.setConfSwitch, index, Proc.bind_eq, Proc.pure_eq])

/-- The `switch` of the direct-store `setconf` on a key outside the table, or on
a value that does not parse: a fatal error. -/
theorem setConfSwitch_fail (w : World) (conf : CBFSConfig) (key val : String)
    (hv : parseValue w key val = none) :
    ∃ m, Direct.setConfSwitch w conf [key, val] = logFatalf m := by
  rcases key_cases key with
    rfl | rfl | rfl | rfl | rfl | rfl | rfl | rfl | rfl | rfl | rfl | rfl | hnone
  case inr.inr.inr.inr.inr.inr.inr.inr.inr.inr.inr.inr =>
    obtain ⟨h1, h2, h3, h4, h5, h6, h7, h8, h9, h10, h11, h12⟩ := lookup_none_ne key hnone
    exact ⟨"Unhandled property: " ++ key ++ " (try running getconf)",
      by simp [Direct.setConfSwitch, index, Proc.bind_eq, Proc.pure_eq,
        h1, h2, h3, h4, h5, h6, h7, h8, h9, h10, h11, h12]⟩
  all_goals
    simp only [parseValue, keyTable, List.lookup] at hv
    simp at hv
  all_goals first
    | (cases hp : w.ParseDuration val with
        | ok d => simp [hp] at hv
        | error e =>
          exact ⟨"Unable to parse duration: " ++ e.msg,
            by simp [Direct.setConfSwitch, index, parseDuration, hp,
              Proc.bind_eq, Proc.pure_eq, logFatalf_andThen]⟩)
    | (cases hp : w.Atoi val with
        | ok d => simp [hp] at hv
        | error e =>
          exact ⟨"Error parsing int: " ++ e.msg,
            by simp [Direct.setConfSwitch, index, parseInt, hp,
              Proc.bind_eq, Proc.pure_eq, logFatalf_andThen]⟩)

/-- A key and a value either parse to a value or do not. -/
theorem parseValue_cases (w : World) (key val : String) :
    parseValue w key val = none ∨ ∃ v, parseValue w key val = some v := by
  cases h : parseValue w key val with
  | none => exact Or.inl rfl
  | some v => exact Or.inr ⟨v, rfl⟩

/-- The direct-store `setconf` on a key and a value that parse: the document
handed to `StoreConfig` is the retrieved one with the field of the key assigned,
and it is the only event after the retrieval and its log line. -/
theorem Direct.setConfCommand_ok (w : World) (b : Bucket) (key val : String) (v : Value)
    (hv : parseValue w key val = some v) :
    ∃ stored, (w.RetrieveConfig b w.DefaultConfig).1.setField key v = some stored ∧
      (Direct.setConfCommand w (some b) [key, val]).trace =
        Event.retrieveConfig b ::
          ((match (w.RetrieveConfig b w.DefaultConfig).2 with
            | some e => [Event.log ("Error getting config: " ++ e.msg ++ ", using default")]
            | none => []) ++
          Event.storeConfig b stored ::
          (match w.StoreConfig b stored with
            | some e => [Event.log ("Error updating config: " ++ e.msg)]
            | none => [])) ∧
      (Direct.setConfCommand w (some b) [key, val]).result =
        (match w.StoreConfig b stored with
          | some _ => .error (.exit 1)
          | none => .ok ()) := by
  obtain ⟨stored, hs, hsw⟩ :=
    setConfSwitch_ok w (w.RetrieveConfig b w.DefaultConfig).1 key val v hv
  refine ⟨stored, hs, ?_⟩
  rcases hret : w.RetrieveConfig b w.DefaultConfig with ⟨rc, re⟩
  rw [hret] at hsw
  simp only at hsw
  cases re with
  | none =>
    cases hst : w.StoreConfig b stored with
    | none =>
      simp [Direct.setConfCommand, hret, Proc.bind_eq, Proc.pure_eq, hsw, hst]
    | some e =>
      simp [Direct.setConfCommand, hret, Proc.bind_eq, Proc.pure_eq, hsw, hst, logFatalf_eq]
  | some e0 =>
    cases hst : w.StoreConfig b stored with
    | none =>
      simp [Direct.setConfCommand, hret, Proc.bind_eq, Proc.pure_eq, hsw, hst, logPrintf]
    | some e =>
      simp [Direct.setConfCommand, hret, Proc.bind_eq, Proc.pure_eq, hsw, hst, logFatalf_eq,
        logPrintf]

/-- The direct-store `setconf` on a key outside the table, or on a value that
does not parse: exit status 1, and nothing is handed to `StoreConfig`. -/
theorem Direct.setConfCommand_rejects (w : World) (cb : Option Bucket) (key val : String)
    (hv : parseValue w key val = none) :
    (Direct.setConfCommand w cb [key, val]).result = .error (.exit 1) ∧
    NoStore (Direct.setConfCommand w cb [key, val]).trace := by
  cases cb with
  | none =>
    simp [Direct.setConfCommand, logFatalf_eq, NoStore]
  | some b =>
    rcases hret : w.RetrieveConfig b w.DefaultConfig with ⟨rc, re⟩
    obtain ⟨m, hm⟩ := setConfSwitch_fail w rc key val hv
    cases re with
    | none =>
      simp [Direct.setConfCommand, hret, Proc.bind_eq, Proc.pure_eq, hm, logFatalf_andThen,
        logFatalf_eq, NoStore]
    | some e0 =>
      simp [Direct.setConfCommand, hret, Proc.bind_eq, Proc.pure_eq, hm, logFatalf_andThen,
        logFatalf_eq, NoStore, logPrintf]

/-- The direct-store `getconf` reads no argument and never panics. -/
theorem Direct.getConfCommand_eq (w : World) (b : Bucket) (args : List String) :
    Direct.getConfCommand w (some b) args =
      ⟨Event.retrieveConfig b ::
        ((match (w.RetrieveConfig b w.DefaultConfig).2 with
          | some e => [Event.log ("Error getting config: " ++ e.msg),
              Event.log "Using default, as shown below:"]
          | none => []) ++ [Event.dump (w.RetrieveConfig b w.DefaultConfig).1]),
        .ok ()⟩ := by
  rcases hret : w.RetrieveConfig b w.DefaultConfig with ⟨rc, re⟩
  cases re with
  | none => simp [Direct.getConfCommand, hret, Proc.bind_eq, Proc.pure_eq, Proc.emit]
  | some e0 =>
    simp [Direct.getConfCommand, hret, Proc.bind_eq, Proc.pure_eq, Proc.emit, logPrintf]

theorem Direct.getConfCommand_noBucket (w : World) (args : List String) :
    Direct.getConfCommand w none args = logFatalf "No couchbase bucket specified" := by
  simp [Direct.getConfCommand]

/-! ## `SetParameter` -/

/-- The modelled `SetParameter` on a key and a value that parse: no error, and
the field of the key assigned. -/
theorem SetParameter_ok (w : World) (conf : CBFSConfig) (key val : String) (v : Value)
    (hv : parseValue w key val = some v) :
    ∃ stored, conf.setField key v = some stored ∧
      SetParameter w conf key val = (stored, none) := by
  obtain ⟨stored, hs, _⟩ := setConfSwitch_ok w conf key val v hv
  refine ⟨stored, hs, ?_⟩
  unfold SetParameter
  cases hl : keyTable.lookup key with
  | none => simp [parseValue, hl] at hv
  | some ty => simp [hv, hs]

/-- The modelled `SetParameter` on a key outside the table, or on a value that
does not parse: an error, and the document as it was. -/
theorem SetParameter_fail (w : World) (conf : CBFSConfig) (key val : String)
    (hv : parseValue w key val = none) :
    ∃ e, SetParameter w conf key val = (conf, some e) := by
  unfold SetParameter
  cases hl : keyTable.lookup key with
  | none => exact ⟨_, rfl⟩
  | some ty => exact ⟨⟨"bad value: " ++ val⟩, by simp [hv]⟩

/-! ## Procedures that do not panic -/

theorem NoPanic_ret {α : Type} (a : α) : NoPanic (Proc.ret a) := by
  intro m h
  simp at h

theorem NoPanic_pure {α : Type} (a : α) : NoPanic (pure a : Proc α) := NoPanic_ret a

theorem NoPanic_emit (e : Event) : NoPanic (Proc.emit e) := by
  intro m h
  simp [Proc.emit] at h

theorem NoPanic_logFatalf {α : Type} (s : String) : NoPanic (logFatalf s : Proc α) := by
  intro m h
  simp [logFatalf_eq] at h

theorem NoPanic_exit {α : Type} (code : Nat) : NoPanic (osExit code : Proc α) := by
  intro m h
  simp [osExit, Proc.halt] at h

theorem NoPanic_andThen {α β : Type} (p : Proc α) (k : α → Proc β)
    (hp : NoPanic p) (hk : ∀ a, NoPanic (k a)) : NoPanic (Proc.andThen p k) := by
  intro m h
  unfold Proc.andThen at h
  cases hr : p.result with
  | error e =>
    rw [hr] at h
    simp only [Except.error.injEq] at h
    exact hp m (by rw [hr, h])
  | ok a =>
    rw [hr] at h
    exact hk a m h

theorem NoPanic_bind {α β : Type} (p : Proc α) (k : α → Proc β)
    (hp : NoPanic p) (hk : ∀ a, NoPanic (k a)) : NoPanic (p >>= k) :=
  NoPanic_andThen p k hp hk

theorem NoPanic_orFatalf {α : Type} (text : String) (r : Except Err α) :
    NoPanic (orFatalf text r) := by
  cases r with
  | error e => exact NoPanic_logFatalf _
  | ok a => exact NoPanic_pure _

theorem Http.getConfig_noPanic (w : World) (u : String) : NoPanic (Http.getConfig w u) := by
  unfold Http.getConfig Http.getConfURL
  refine NoPanic_bind _ _ (NoPanic_orFatalf _ _) fun url => ?_
  refine NoPanic_bind _ _ (NoPanic_emit _) fun _ => ?_
  refine NoPanic_bind _ _ (NoPanic_orFatalf _ _) fun _ => ?_
  refine NoPanic_bind _ _ (NoPanic_orFatalf _ _) fun _ => ?_
  exact NoPanic_pure _

theorem index_lt (args : List String) (i : Nat) (h : i < args.length) :
    index args i = Proc.ret (args.get ⟨i, h⟩) := by
  simp [index, List.getElem?_eq_getElem h, Proc.pure_eq]

theorem index_ge (args : List String) (i : Nat) (h : args.length ≤ i) :
    index args i = Proc.halt (.panic "index out of range") := by
  simp [index, List.getElem?_eq_none h]

/-- The HTTP `getconf` with at least one argument does not panic. -/
theorem Http.getConfCommand_noPanic (w : World) (args : List String) (h : 1 ≤ args.length) :
    NoPanic (Http.getConfCommand w args) := by
  unfold Http.getConfCommand
  rw [index_lt args 0 (by omega)]
  simp only [Proc.bind_eq, Proc.andThen_ret]
  exact NoPanic_andThen _ _ (Http.getConfig_noPanic w _) fun _ => NoPanic_emit _

/-- The HTTP `getconf` without arguments panics on `args[0]`. -/
theorem Http.getConfCommand_nil (w : World) :
    Http.getConfCommand w [] = Proc.halt (.panic "index out of range") := by
  simp [Http.getConfCommand, index, Proc.bind_eq]

/-- The HTTP `setconf` with at least three arguments does not panic. -/
theorem Http.setConfCommand_noPanic (w : World) (args : List String) (h : 3 ≤ args.length) :
    NoPanic (Http.setConfCommand w args) := by
  unfold Http.setConfCommand Http.getConfURL
  rw [index_lt args 0 (by omega), index_lt args 1 (by omega), index_lt args 2 (by omega)]
  simp only [Proc.bind_eq, Proc.andThen_ret]
  refine NoPanic_andThen _ _ (Http.getConfig_noPanic w _) fun conf => ?_
  split <;>
  repeat' (first
    | exact NoPanic_logFatalf _
    | exact NoPanic_pure _
    | exact NoPanic_orFatalf _ _
    | exact NoPanic_emit _
    | exact NoPanic_exit _
    | refine NoPanic_andThen _ _ ?_ fun _ => ?_
    | split)

/-- Assigning to the field of a key sets that field and no other. -/
theorem setField_field (conf stored : CBFSConfig) (key : String) (v : Value)
    (h : conf.setField key v = some stored) :
    stored.field key = some v ∧ ∀ k, k ≠ key → stored.field k = conf.field k := by
  cases v <;> simp only [CBFSConfig.setField] at h <;> split_ifs at h <;>
    simp only [Option.some.injEq] at h <;> subst h <;> subst_vars <;>
    refine ⟨by simp [CBFSConfig.field], fun k hk => ?_⟩ <;>
    simp [CBFSConfig.field, hk]

/-- A key with a value that parses is one of the twelve keys of the table. -/
theorem parseValue_some_key (w : World) (key val : String) (v : Value)
    (hv : parseValue w key val = some v) :
    key ∈ ["gcfreq", "gclimit", "hash", "hbfreq", "minrepl", "maxrepl", "cleanCount",
      "reconcileFreq", "nodeCheckFreq", "staleLimit", "underReplicaCheckFreq",
      "overReplicaCheckFreq"] := by
  rcases key_cases key with
    h | h | h | h | h | h | h | h | h | h | h | h | hnone
  case inr.inr.inr.inr.inr.inr.inr.inr.inr.inr.inr.inr =>
    simp [parseValue, hnone] at hv
  all_goals simp [h]

/-- The rejected inputs are those on which no value is parsed. -/
theorem parseValue_none_of (w : World) (key val : String)
    (h : keyTable.lookup key = none ∨
      (keyTable.lookup key = some .duration ∧ ∃ e, w.ParseDuration val = .error e) ∨
      (keyTable.lookup key = some .integer ∧ ∃ e, w.Atoi val = .error e)) :
    parseValue w key val = none := by
  rcases h with h | ⟨h, e, he⟩ | ⟨h, e, he⟩
  · simp [parseValue, h]
  · simp [parseValue, h, he]
  · simp [parseValue, h, he]

theorem orFatalf_cases {α : Type} (text : String) (r : Except Err α) :
    (∃ e, r = .error e ∧ orFatalf text r = logFatalf (text ++ e.msg)) ∨
    (∃ a, r = .ok a ∧ orFatalf text r = Proc.ret a) := by
  cases r with
  | error e => exact Or.inl ⟨e, rfl, rfl⟩
  | ok a => exact Or.inr ⟨a, rfl, rfl⟩

/-- The function `getConfig` either ends the process with status 1 or returns a
document; it issues a `GET` at most, never a `PUT`. -/
theorem Http.getConfig_cases (w : World) (u : String) :
    NoPut (Http.getConfig w u).trace ∧
    ((Http.getConfig w u).result = .error (.exit 1) ∨
      ∃ url res conf, w.urlWithPath u "/.cbfs/config/" = .ok url ∧ w.httpGet url = .ok res ∧
        w.jsonDecode res.Body = .ok conf ∧
        Http.getConfig w u = ⟨[Event.httpGet url], .ok conf⟩) := by
  unfold Http.getConfig Http.getConfURL
  rcases orFatalf_cases "Error parsing URL: " (w.urlWithPath u "/.cbfs/config/") with
    ⟨e, _, h1⟩ | ⟨url, hu, h1⟩
  · simp [h1, Proc.bind_eq, logFatalf_andThen, logFatalf_eq, NoPut]
  rcases orFatalf_cases "Error making HTTP connection: " (w.httpGet url) with
    ⟨e, _, h2⟩ | ⟨res, hr, h2⟩
  · simp [h1, h2, Proc.bind_eq, logFatalf_andThen, logFatalf_eq, NoPut]
  rcases orFatalf_cases "Error parsing response: " (w.jsonDecode res.Body) with
    ⟨e, _, h3⟩ | ⟨conf, hc, h3⟩
  · simp [h1, h2, h3, Proc.bind_eq, logFatalf_andThen, logFatalf_eq, NoPut]
  · refine ⟨?_, Or.inr ⟨url, res, conf, hu, hr, hc, ?_⟩⟩
    · simp [h1, h2, h3, Proc.bind_eq, Proc.pure_eq, NoPut]
    · simp [h1, h2, h3, Proc.bind_eq, Proc.pure_eq]

/-- The HTTP `setconf` on a key outside the table, or on a value that does not
parse: exit status 1 before any `PUT`. -/
theorem Http.setConfCommand_fail (w : World) (url key val : String)
    (hv : parseValue w key val = none) :
    (Http.setConfCommand w [url, key, val]).result = .error (.exit 1) ∧
    NoPut (Http.setConfCommand w [url, key, val]).trace := by
  obtain ⟨hnp, hg⟩ := Http.getConfig_cases w url
  have hsplit : Http.setConfCommand w [url, key, val] =
      Proc.andThen (Http.getConfig w url) fun conf =>
        logFatalf ("Unhandled property: " ++ key ++ " (try running getconf)") := by
    unfold Http.setConfCommand
    simp only [index, List.getElem?_cons_zero, List.getElem?_cons_succ, Proc.bind_eq,
      Proc.pure_eq, Proc.andThen_ret]
    congr 1
    funext conf
    obtain ⟨e, he⟩ := SetParameter_fail w conf key val hv
    simp [he, logFatalf_andThen]
  rw [hsplit]
  rcases hg with hg | ⟨u, res, conf, _, _, _, hg⟩
  · constructor
    · simp [Proc.andThen, hg]
    · intro r hr
      simp only [Proc.andThen, hg] at hr
      exact hnp r hr
  · rw [hg]
    simp [logFatalf_eq, NoPut]

/-! ## `setconf` and `getconf` -/

/-- C2: the direct-store `setconf`, given a bucket, on one of the twelve keys
and a value that parses as the type of its field (a duration, a base-10
integer, or any string for `hash`), hands exactly one document to
`StoreConfig`: the retrieved document with the field of that key replaced by
the parsed value, every other field being as retrieved. -/
theorem setconf_success (w : World) (b : Bucket) (key val : String) (v : Value)
    (hv : parseValue w key val = some v) :
    key ∈ ["gcfreq", "gclimit", "hash", "hbfreq", "minrepl", "maxrepl", "cleanCount",
      "reconcileFreq", "nodeCheckFreq", "staleLimit", "underReplicaCheckFreq",
      "overReplicaCheckFreq"] ∧
    ∃ stored,
      (∃ pre post, (Direct.setConfCommand w (some b) [key, val]).trace =
          pre ++ Event.storeConfig b stored :: post ∧ NoStore pre ∧ NoStore post) ∧
      (w.RetrieveConfig b w.DefaultConfig).1.setField key v = some stored ∧
      stored.field key = some v ∧
      ∀ k, k ≠ key → stored.field k = (w.RetrieveConfig b w.DefaultConfig).1.field k := by
  refine ⟨parseValue_some_key w key val v hv, ?_⟩
  obtain ⟨stored, hs, ht, _⟩ := Direct.setConfCommand_ok w b key val v hv
  obtain ⟨hf1, hf2⟩ := setField_field _ stored key v hs
  refine ⟨stored, ⟨Event.retrieveConfig b ::
      (match (w.RetrieveConfig b w.DefaultConfig).2 with
        | some e => [Event.log ("Error getting config: " ++ e.msg ++ ", using default")]
        | none => []),
      (match w.StoreConfig b stored with
        | some e => [Event.log ("Error updating config: " ++ e.msg)]
        | none => []), ?_, ?_, ?_⟩, hs, hf1, hf2⟩
  · rw [ht]
    exact (List.cons_append _ _ _).symm
  · intro b2 c hm
    cases hr : (w.RetrieveConfig b w.DefaultConfig).2 <;> simp [hr] at hm
  · intro b2 c hm
    cases hst : w.StoreConfig b stored <;> simp [hst] at hm

/-- The hypothesis of `setconf_success` holds for `setconf gcfreq 10m` in the
sample world, where the stored document is the default one with `GCFreq` set
to ten minutes. -/
theorem setconf_success_witness :
    parseValue sampleWorld "gcfreq" "10m" = some (.duration 600000000000) ∧
    ∃ stored,
      (∃ pre post, (Direct.setConfCommand sampleWorld (some ⟨1⟩) ["gcfreq", "10m"]).trace =
          pre ++ Event.storeConfig ⟨1⟩ stored :: post ∧ NoStore pre ∧ NoStore post) ∧
      (sampleWorld.RetrieveConfig ⟨1⟩ sampleWorld.DefaultConfig).1.setField "gcfreq"
        (.duration 600000000000) = some stored ∧
      stored.field "gcfreq" = some (.duration 600000000000) ∧
      ∀ k, k ≠ "gcfreq" → stored.field k =
        (sampleWorld.RetrieveConfig ⟨1⟩ sampleWorld.DefaultConfig).1.field k :=
  have hv : parseValue sampleWorld "gcfreq" "10m" = some (.duration 600000000000) := by
    decide
  ⟨hv, (setconf_success sampleWorld ⟨1⟩ "gcfreq" "10m" (.duration 600000000000) hv).2⟩

/-- C3: when the key is not one of the twelve recognised keys, or the value
does not parse as the type of the key's field, both `setconf` handlers end
the process with an error (exit status 1) before the document is persisted:
the direct-store handler never reaches `StoreConfig` and the HTTP handler
never issues the `PUT`. -/
theorem setconf_rejection (w : World) (cb : Option Bucket) (url key val : String)
    (h : keyTable.lookup key = none ∨
      (keyTable.lookup key = some .duration ∧ ∃ e, w.ParseDuration val = .error e) ∨
      (keyTable.lookup key = some .integer ∧ ∃ e, w.Atoi val = .error e)) :
    ((Direct.setConfCommand w cb [key, val]).result = .error (.exit 1) ∧
      NoStore (Direct.setConfCommand w cb [key, val]).trace) ∧
    ((Http.setConfCommand w [url, key, val]).result = .error (.exit 1) ∧
      NoPut (Http.setConfCommand w [url, key, val]).trace) :=
  have hv := parseValue_none_of w key val h
  ⟨Direct.setConfCommand_rejects w cb key val hv, Http.setConfCommand_fail w url key val hv⟩

/-- The hypothesis of `setconf_rejection` holds for `gclimit = "abc"` in the
sample world. -/
theorem setconf_rejection_witness :
    (keyTable.lookup "gclimit" = some .integer ∧
      ∃ e, sampleWorld.Atoi "abc" = .error e) ∧
    ((Direct.setConfCommand sampleWorld (some ⟨1⟩) ["gclimit", "abc"]).result
        = .error (.exit 1) ∧
      NoStore (Direct.setConfCommand sampleWorld (some ⟨1⟩) ["gclimit", "abc"]).trace) ∧
    ((Http.setConfCommand sampleWorld ["http://cbfs:8484/", "gclimit", "abc"]).result
        = .error (.exit 1) ∧
      NoPut (Http.setConfCommand sampleWorld ["http://cbfs:8484/", "gclimit", "abc"]).trace) :=
  have h : keyTable.lookup "gclimit" = some .integer ∧
      ∃ e, sampleWorld.Atoi "abc" = .error e :=
    ⟨by decide, ⟨_, rfl⟩⟩
  ⟨h, setconf_rejection sampleWorld (some ⟨1⟩) "http://cbfs:8484/" "gclimit" "abc"
    (Or.inr (Or.inr h))⟩

/-- C9: when `RetrieveConfig` fails and leaves its receiver as it was, the
direct-store `getconf` returns without error after dumping exactly
`DefaultConfig()`, and the direct-store `setconf` (on a key and value that
parse) hands to `StoreConfig` the default document with the one field
replaced. -/
theorem default_fallback (w : World) (b : Bucket) (e : Err)
    (herr : (w.RetrieveConfig b w.DefaultConfig).2 = some e)
    (hsame : (w.RetrieveConfig b w.DefaultConfig).1 = w.DefaultConfig) :
    (∀ args, Direct.getConfCommand w (some b) args =
      ⟨[Event.retrieveConfig b, Event.log ("Error getting config: " ++ e.msg),
        Event.log "Using default, as shown below:", Event.dump w.DefaultConfig], .ok ()⟩) ∧
    (∀ key val v, parseValue w key val = some v →
      ∃ stored, w.DefaultConfig.setField key v = some stored ∧
        stored.field key = some v ∧
        (∀ k, k ≠ key → stored.field k = w.DefaultConfig.field k) ∧
        ∃ post, (Direct.setConfCommand w (some b) [key, val]).trace =
          [Event.retrieveConfig b,
            Event.log ("Error getting config: " ++ e.msg ++ ", using default"),
            Event.storeConfig b stored] ++ post ∧ NoStore post) := by
  constructor
  · intro args
    rw [Direct.getConfCommand_eq, herr, hsame]
    rfl
  · intro key val v hv
    obtain ⟨stored, hs, ht, _⟩ := Direct.setConfCommand_ok w b key val v hv
    rw [hsame] at hs
    obtain ⟨hf1, hf2⟩ := setField_field _ stored key v hs
    refine ⟨stored, hs, hf1, hf2,
      (match w.StoreConfig b stored with
        | some e => [Event.log ("Error updating config: " ++ e.msg)]
        | none => []), ?_, ?_⟩
    · rw [ht, herr]
      rfl
    · intro b2 c hm
      cases hst : w.StoreConfig b stored <;> simp [hst] at hm

/-- The hypotheses of `default_fallback` hold in the sample world, whose bucket
is empty, and `getconf` returns. -/
theorem default_fallback_witness :
    (sampleWorld.RetrieveConfig ⟨1⟩ sampleWorld.DefaultConfig).2 = some ⟨"not found"⟩ ∧
    (sampleWorld.RetrieveConfig ⟨1⟩ sampleWorld.DefaultConfig).1 = sampleWorld.DefaultConfig ∧
    Direct.getConfCommand sampleWorld (some ⟨1⟩) [] =
      ⟨[Event.retrieveConfig ⟨1⟩, Event.log ("Error getting config: " ++ "not found"),
        Event.log "Using default, as shown below:", Event.dump sampleWorld.DefaultConfig],
        .ok ()⟩ :=
  ⟨rfl, rfl, (default_fallback sampleWorld ⟨1⟩ ⟨"not found"⟩ rfl rfl).1 []⟩

/-! ## `Client.SetConfigParam` -/

/-- The method `SetConfigParam` when fetching the document fails. -/
theorem Client.SetConfigParam_get_error (w : World) (key val : String) (e : Err)
    (h : (w.getJsonData (Client.confURL w)).2 = some e) :
    Client.SetConfigParam w key val = ⟨[Event.httpGet (Client.confURL w)], .ok (some e)⟩ := by
  rcases hg : w.getJsonData (Client.confURL w) with ⟨conf, err⟩
  rw [hg] at h
  simp only at h
  subst h
  simp [Client.SetConfigParam, Client.GetConfig, hg, Proc.bind_eq, Proc.pure_eq]

/-- The method `SetConfigParam` when `SetParameter` fails. -/
theorem Client.SetConfigParam_set_error (w : World) (key val : String) (e : Err)
    (h1 : (w.getJsonData (Client.confURL w)).2 = none)
    (h2 : (SetParameter w (w.getJsonData (Client.confURL w)).1 key val).2 = some e) :
    Client.SetConfigParam w key val = ⟨[Event.httpGet (Client.confURL w)], .ok (some e)⟩ := by
  rcases hg : w.getJsonData (Client.confURL w) with ⟨conf, err⟩
  rw [hg] at h1 h2
  simp only at h1 h2
  subst h1
  rcases hs : SetParameter w conf key val with ⟨conf2, err2⟩
  rw [hs] at h2
  simp only at h2
  subst h2
  simp [Client.SetConfigParam, Client.GetConfig, hg, hs, Proc.bind_eq, Proc.pure_eq]

/-- The method `SetConfigParam` when every step up to the response succeeds. -/
theorem Client.SetConfigParam_response (w : World) (key val : String)
    (conf conf2 : CBFSConfig) (data : String) (req : Request) (res : Response)
    (hget : w.getJsonData (Client.confURL w) = (conf, none))
    (hset : SetParameter w conf key val = (conf2, none))
    (hm : w.jsonMarshal conf2 = .ok data)
    (hreq : w.newRequest "PUT" (Client.confURL w) data = .ok req)
    (hdo : w.httpDo
      { req with header := ("Content-Type", "application/json") :: req.header } = .ok res) :
    Client.SetConfigParam w key val =
      ⟨[Event.httpGet (Client.confURL w),
        Event.httpDo { req with header := ("Content-Type", "application/json") :: req.header }],
        .ok (if res.StatusCode ≠ 204 then some (w.HTTPError res) else none)⟩ := by
  by_cases hc : res.StatusCode = 204
  · simp [Client.SetConfigParam, Client.GetConfig, hget, hset, hm, hreq, hdo, hc,
      Proc.bind_eq, Proc.pure_eq]
  · simp [Client.SetConfigParam, Client.GetConfig, hget, hset, hm, hreq, hdo, hc,
      Proc.bind_eq, Proc.pure_eq]

/-- The HTTP `setconf` when every step up to the response succeeds. -/
theorem Http.setConfCommand_response (w : World) (url key val u : String) (r0 : Response)
    (conf conf2 : CBFSConfig) (data : String) (req : Request) (res : Response)
    (hurl : w.urlWithPath url "/.cbfs/config/" = .ok u)
    (hget : w.httpGet u = .ok r0)
    (hdec : w.jsonDecode r0.Body = .ok conf)
    (hset : SetParameter w conf key val = (conf2, none))
    (hm : w.jsonMarshal conf2 = .ok data)
    (hreq : w.newRequest "PUT" u data = .ok req)
    (hdo : w.httpDo
      { req with header := ("Content-Type", "application/json") :: req.header } = .ok res) :
    (Http.setConfCommand w [url, key, val]).result =
      if res.StatusCode ≠ 204 then .error (.exit 1) else .ok () := by
  by_cases hc : res.StatusCode = 204
  · simp [Http.setConfCommand, Http.getConfig, Http.getConfURL, index, orFatalf, hurl, hget,
      hdec, hset, hm, hreq, hdo, hc, Proc.bind_eq, Proc.pure_eq]
  · simp [Http.setConfCommand, Http.getConfig, Http.getConfURL, index, orFatalf, hurl, hget,
      hdec, hset, hm, hreq, hdo, hc, Proc.bind_eq, Proc.pure_eq, logPrintf, fprintStderr,
      osExit, Proc.halt]

/-- C5: when `SetParameter`, the JSON marshalling and the HTTP round trip
succeed with response `res`, then (1) `Client.SetConfigParam`, given that
`GetConfig` and the request construction succeed, returns nil iff the status
code of `res` is exactly 204 and the error built from the response for every
other code (200 and 500 included), and (2) the HTTP `setconf` handler of
`cbfsclient/conf.go`, given that its own `GET` and request construction
succeed, exits with status 1 for every code other than 204 and returns on
204. -/
theorem setConfigParam_status (w : World) (key val : String)
    (conf conf2 : CBFSConfig) (data : String) (req : Request) (res : Response)
    (hset : SetParameter w conf key val = (conf2, none))
    (hm : w.jsonMarshal conf2 = .ok data)
    (hdo : w.httpDo
      { req with header := ("Content-Type", "application/json") :: req.header } = .ok res) :
    (w.getJsonData (Client.confURL w) = (conf, none) →
      w.newRequest "PUT" (Client.confURL w) data = .ok req →
      ((Client.SetConfigParam w key val).result = .ok none ↔ res.StatusCode = 204) ∧
      (res.StatusCode ≠ 204 →
        (Client.SetConfigParam w key val).result = .ok (some (w.HTTPError res))) ∧
      (res.StatusCode = 200 ∨ res.StatusCode = 500 →
        ∃ e, (Client.SetConfigParam w key val).result = .ok (some e))) ∧
    (∀ url u r0, w.urlWithPath url "/.cbfs/config/" = .ok u → w.httpGet u = .ok r0 →
      w.jsonDecode r0.Body = .ok conf → w.newRequest "PUT" u data = .ok req →
      (res.StatusCode ≠ 204 →
        (Http.setConfCommand w [url, key, val]).result = .error (.exit 1)) ∧
      (res.StatusCode = 204 → (Http.setConfCommand w [url, key, val]).result = .ok ())) := by
  constructor
  · intro hget hreq
    have hr := Client.SetConfigParam_response w key val conf conf2 data req res
      hget hset hm hreq hdo
    have hne : res.StatusCode ≠ 204 →
        (Client.SetConfigParam w key val).result = .ok (some (w.HTTPError res)) := by
      intro hc
      rw [hr]
      simp [hc]
    refine ⟨?_, hne, ?_⟩
    · constructor
      · intro h
        by_contra hc
        rw [hne hc] at h
        simp at h
      · intro hc
        rw [hr]
        simp [hc]
    · intro hc
      refine ⟨_, hne ?_⟩
      rcases hc with hc | hc <;> rw [hc] <;> decide
  · intro url u r0 hurl hget hdec hreq
    have hr := Http.setConfCommand_response w url key val u r0 conf conf2 data req res
      hurl hget hdec hset hm hreq hdo
    constructor
    · intro hc
      rw [hr, if_pos hc]
    · intro hc
      rw [hr]
      simp [hc]

/-- The hypotheses of `setConfigParam_status` hold for `gcfreq = 10m` against the
sample node that answers 500, and `SetConfigParam` returns an error. -/
theorem setConfigParam_status_witness :
    ∃ e, (Client.SetConfigParam sampleWorldFailing "gcfreq" "10m").result = .ok (some e) :=
  ((setConfigParam_status sampleWorldFailing "gcfreq" "10m" sampleDefault
      { sampleDefault with GCFreq := 600000000000 } "doc"
      ⟨"PUT", "http://cbfs:8484/.cbfs/config/", "doc", []⟩
      ⟨500, "500 Internal Server Error", "disk full"⟩
      (by decide) rfl rfl).1 rfl rfl).2.2 (Or.inr rfl)

/-- C6: when `GetConfig` returns an error `e`, or `GetConfig` succeeds and
`SetParameter` returns an error `e`, `Client.SetConfigParam` returns exactly
`e` to its caller (the process goes on), having issued the `GET` only and no
`PUT`. -/
theorem setConfigParam_propagates (w : World) (key val : String) (e : Err)
    (h : (w.getJsonData (Client.confURL w)).2 = some e ∨
      ((w.getJsonData (Client.confURL w)).2 = none ∧
        (SetParameter w (w.getJsonData (Client.confURL w)).1 key val).2 = some e)) :
    (Client.SetConfigParam w key val).result = .ok (some e) ∧
    (Client.SetConfigParam w key val).trace = [Event.httpGet (Client.confURL w)] ∧
    NoPut (Client.SetConfigParam w key val).trace := by
  have heq : Client.SetConfigParam w key val =
      ⟨[Event.httpGet (Client.confURL w)], .ok (some e)⟩ := by
    rcases h with h | ⟨h1, h2⟩
    · exact Client.SetConfigParam_get_error w key val e h
    · exact Client.SetConfigParam_set_error w key val e h1 h2
  rw [heq]
  refine ⟨rfl, rfl, ?_⟩
  intro r hr
  simp at hr

/-- The hypothesis of `setConfigParam_propagates` holds for the unknown key
`bogusKey` in the sample world. -/
theorem setConfigParam_propagates_witness :
    (Client.SetConfigParam sampleWorld "bogusKey" "1").result =
      .ok (some ⟨"unknown parameter: bogusKey (try running getconf)"⟩) :=
  (setConfigParam_propagates sampleWorld "bogusKey" "1"
    ⟨"unknown parameter: bogusKey (try running getconf)"⟩
    (Or.inr ⟨rfl, by decide⟩)).1

/-! ## Usage rendering -/

/-- C8 (amended): the usage text has exactly one line for each registered
command, giving the command name followed by its argument-string hint,
between the heading and the flag defaults; the lines come in the order in
which the run-time visits the map, so any rendering is a rearrangement of the
five lines of the registry (the order itself is not fixed by the registry). -/
theorem usage_lines_perm (w : World) :
    (Usage w : Proc Unit) =
      ⟨Event.stderr ("Usage of " ++ w.progName ++ " [-flags] cmd cmdargs\n")
          :: Event.stderr "\nCommands:\n"
          :: ((usageLines w.rangeCommands).map Event.stderr
              ++ [Event.stderr "\nFlags:\n", Event.stderr w.flagDefaults]),
        .error (.exit 1)⟩ ∧
    (usageLines w.rangeCommands).Perm (usageLines commands) ∧
    usageLines commands =
      ["  upload [opts] /src/dir http://cbfs:8484/path/\n",
       "  ls http://cbfs:8484/some/path\n",
       "  rm [-r] [-v] http://cbfs:8484/some/path\n",
       "  getconf \n",
       "  setconf prop value\n"] ∧
    (usageLines commands).Nodup ∧
    (∀ name cmd, commands.lookup name = some cmd →
      (usageLines w.rangeCommands).count ("  " ++ name ++ " " ++ cmd.argstr ++ "\n") = 1) := by
  have hperm : (usageLines w.rangeCommands).Perm (usageLines commands) :=
    List.Perm.map _ w.rangeCommands_perm
  have hlines : usageLines commands =
      ["  upload [opts] /src/dir http://cbfs:8484/path/\n",
       "  ls http://cbfs:8484/some/path\n",
       "  rm [-r] [-v] http://cbfs:8484/some/path\n",
       "  getconf \n",
       "  setconf prop value\n"] := by decide
  have hnodup : (usageLines commands).Nodup := by
    rw [hlines]
    decide
  refine ⟨Usage_eq w, hperm, hlines, hnodup, ?_⟩
  intro name cmd hreg
  rw [hperm.count_eq]
  have hname := (commands_lookup_isSome name).mp ⟨cmd, hreg⟩
  rcases hname with rfl | rfl | rfl | rfl | rfl <;>
    simp [commands, List.lookup] at hreg <;> subst hreg <;> rw [hlines] <;> decide

/-- C8 as stated fails: two runs over the same registry, whose run-times visit
the map in different orders, print the command lines in different orders. -/
theorem usage_order_counterexample :
    sampleWorld.rangeCommands.Perm commands ∧
    sampleWorldReversed.rangeCommands.Perm commands ∧
    (Usage sampleWorld : Proc Unit).trace ≠ (Usage sampleWorldReversed : Proc Unit).trace := by
  refine ⟨sampleWorld.rangeCommands_perm, sampleWorldReversed.rangeCommands_perm, ?_⟩
  rw [Usage_eq, Usage_eq]
  intro h
  have h2 := congrArg (fun t => t[2]?) h
  revert h2
  decide

/-! ## Argument indexing -/

/-- The direct-store `getconf` reads no argument: it never panics. -/
theorem Direct.getConfCommand_neverPanics (w : World) (cb : Option Bucket) (args : List String) :
    NoPanic (Direct.getConfCommand w cb args) := by
  cases cb with
  | none =>
    rw [Direct.getConfCommand_noBucket]
    exact NoPanic_logFatalf _
  | some b =>
    rw [Direct.getConfCommand_eq]
    intro m h
    simp at h

/-- The direct-store `setconf` on exactly two arguments does not panic. -/
theorem Direct.setConfCommand_inBounds (w : World) (cb : Option Bucket) (key val : String) :
    NoPanic (Direct.setConfCommand w cb [key, val]) := by
  intro m hm
  rcases parseValue_cases w key val with hv | ⟨v, hv⟩
  · rw [(Direct.setConfCommand_rejects w cb key val hv).1] at hm
    simp at hm
  · cases cb with
    | none => simp [Direct.setConfCommand, logFatalf_eq] at hm
    | some b =>
      obtain ⟨stored, _, _, hr⟩ := Direct.setConfCommand_ok w b key val v hv
      rw [hr] at hm
      cases hst : w.StoreConfig b stored <;> simp [hst] at hm

/-- A list of length two. -/
theorem length_two {α : Type} (l : List α) (h : l.length = 2) : ∃ a b, l = [a, b] := by
  match l, h with
  | [a, b], _ => exact ⟨a, b, rfl⟩

/-- The HTTP `setconf` on exactly two arguments: once `getConfig` has returned,
it panics on `args[2]`. -/
theorem Http.setConfCommand_two (w : World) (a b : String) (conf : CBFSConfig)
    (h : (Http.getConfig w a).result = .ok conf) :
    (Http.setConfCommand w [a, b]).result = .error (.panic "index out of range") := by
  simp [Http.setConfCommand, index, Proc.bind_eq, Proc.pure_eq, Proc.andThen, h, Proc.halt]

/-! ## The arity check -/

/-- A handler call is the call event followed by the body of the function bound
to the handler. -/
theorem invoke_runs (impl : Handler → Option Bucket → List String → Proc Unit)
    (h : Handler) (cb : Option Bucket) (args : List String) :
    RunsHandler (invoke impl h cb args) impl h cb args := by
  constructor <;> simp [invoke, Proc.bind_eq]

/-- The report of incorrect arguments starts with a write to standard error, so
it is not a handler run. -/
theorem incorrectArguments_not_runs (w : World) (n : String)
    (impl : Handler → Option Bucket → List String → Proc Unit)
    (h : Handler) (cb : Option Bucket) (args : List String) :
    ¬ RunsHandler (incorrectArguments w n) impl h cb args := by
  intro hr
  have ht := hr.1
  simp [incorrectArguments, Proc.bind_eq, fprintStderr] at ht

/-- On a registered command, once the connection step went through, `main` runs
the handler on the remaining arguments iff the arity rule accepts their count. -/
theorem main_runs_iff (w : World)
    (impl : Handler → Option Bucket → List String → Proc Unit)
    (fl : Flags) (name : String) (cmd : Command) (rest : List String) (cb : Option Bucket)
    (hreg : commands.lookup name = some cmd) (hconn : Connected w fl cb) :
    RunsHandler (main w impl fl (name :: rest)) impl cmd.f cb rest ↔
      arityAccepts cmd.nargs rest.length := by
  rw [main_registered w impl fl name cmd rest cb hreg hconn]
  by_cases ha : arityAccepts cmd.nargs rest.length
  · simp only [ha, if_true, iff_true]
    exact invoke_runs impl cmd.f cb rest
  · simp only [ha, if_false, iff_false]
    exact incorrectArguments_not_runs w name impl cmd.f cb rest

/-- On a refused argument count, once the connection step went through, `main`
reports incorrect arguments, prints the usage listing and exits with status 1
without calling a handler. -/
theorem main_refuses (w : World)
    (impl : Handler → Option Bucket → List String → Proc Unit)
    (fl : Flags) (name : String) (cmd : Command) (rest : List String) (cb : Option Bucket)
    (hreg : commands.lookup name = some cmd) (hconn : Connected w fl cb)
    (ha : ¬ arityAccepts cmd.nargs rest.length) :
    main w impl fl (name :: rest) = incorrectArguments w name ∧
    PrintsUsage w (main w impl fl (name :: rest)).trace ∧
    (main w impl fl (name :: rest)).result = .error (.exit 1) ∧
    NoCall (main w impl fl (name :: rest)).trace := by
  rw [main_registered w impl fl name cmd rest cb hreg hconn, if_neg ha]
  exact ⟨rfl, incorrectArguments_printsUsage w name, incorrectArguments_result w name,
    incorrectArguments_noCall w name⟩

/-- With a couchbase server named that cannot be reached, `main` on any
non-empty argument vector is the fatal connection error alone: no handler is
called and no usage listing is printed. -/
theorem main_unreachable_only (w : World)
    (impl : Handler → Option Bucket → List String → Proc Unit)
    (fl : Flags) (name : String) (rest : List String) (e : Err)
    (hs : fl.couchbaseServer ≠ "")
    (hb : w.GetBucket fl.couchbaseServer "default" fl.couchbaseBucket = .error e) :
    main w impl fl (name :: rest) =
      ⟨[Event.log ("Error connecting to couchbase: " ++ e.msg)], .error (.exit 1)⟩ ∧
    NoCall (main w impl fl (name :: rest)).trace ∧
    ¬ PrintsUsage w (main w impl fl (name :: rest)).trace := by
  have hm : main w impl fl (name :: rest) =
      ⟨[Event.log ("Error connecting to couchbase: " ++ e.msg)], .error (.exit 1)⟩ := by
    rw [main_unreachable w impl fl name rest e hs hb, logFatalf_eq]
  rw [hm]
  refine ⟨rfl, ?_, ?_⟩
  · intro h args hmem
    simp at hmem
  · intro hp
    have := hp.1
    simp at this

/-- C1 (amended): in `main`, once the connection step has gone through (no
couchbase server named, or `couchbase.GetBucket` returned the bucket), a
registered command with arity `n` followed by `k` arguments has its handler
run, on exactly those arguments, iff (`n ≥ 0` and `k = n`) or (`n < 0` and
`k ≥ -n`); otherwise `main` reports incorrect arguments, prints the usage
listing and exits with status 1 without calling any handler.  Arity 2 accepts
exactly `k = 2` (so it rejects 0, 1, 3) and arity -2 accepts exactly `k ≥ 2`
(so it rejects 0, 1).  When a server is named and cannot be reached, `main`
stops on the fatal connection error whatever the argument count: no handler
is called and no usage listing is printed. -/
theorem main_arity_check (w : World)
    (impl : Handler → Option Bucket → List String → Proc Unit)
    (fl : Flags) (name : String) (cmd : Command) (rest : List String)
    (hreg : commands.lookup name = some cmd) :
    (∀ cb, Connected w fl cb →
      (RunsHandler (main w impl fl (name :: rest)) impl cmd.f cb rest ↔
        ((0 ≤ cmd.nargs ∧ (rest.length : Int) = cmd.nargs) ∨
         (cmd.nargs < 0 ∧ (rest.length : Int) ≥ -cmd.nargs))) ∧
      (Invoked (main w impl fl (name :: rest)).trace cmd.f rest ↔
        arityAccepts cmd.nargs rest.length) ∧
      (¬ arityAccepts cmd.nargs rest.length →
        main w impl fl (name :: rest) = incorrectArguments w name ∧
        PrintsUsage w (main w impl fl (name :: rest)).trace ∧
        (main w impl fl (name :: rest)).result = .error (.exit 1) ∧
        NoCall (main w impl fl (name :: rest)).trace) ∧
      (cmd.nargs = 2 →
        (RunsHandler (main w impl fl (name :: rest)) impl cmd.f cb rest ↔ rest.length = 2)) ∧
      (cmd.nargs = -2 →
        (RunsHandler (main w impl fl (name :: rest)) impl cmd.f cb rest ↔
          2 ≤ rest.length))) ∧
    (∀ e, fl.couchbaseServer ≠ "" →
      w.GetBucket fl.couchbaseServer "default" fl.couchbaseBucket = .error e →
      main w impl fl (name :: rest) =
        ⟨[Event.log ("Error connecting to couchbase: " ++ e.msg)], .error (.exit 1)⟩ ∧
      NoCall (main w impl fl (name :: rest)).trace ∧
      ¬ PrintsUsage w (main w impl fl (name :: rest)).trace) := by
  constructor
  · intro cb hconn
    have hruns := main_runs_iff w impl fl name cmd rest cb hreg hconn
    refine ⟨hruns, main_invoked_iff w impl fl name cmd rest cb hreg hconn,
      main_refuses w impl fl name cmd rest cb hreg hconn, ?_, ?_⟩
    · intro h2
      rw [hruns]
      unfold arityAccepts
      omega
    · intro h2
      rw [hruns]
      unfold arityAccepts
      omega
  · intro e hs hb
    exact main_unreachable_only w impl fl name rest e hs hb

/-- The hypothesis of `main_arity_check` holds for `setconf gcfreq 10m` with the
reachable sample server named, and `main` runs the direct-store `setconf` on
`gcfreq 10m` with the bucket obtained. -/
theorem main_arity_check_witness :
    commands.lookup "setconf" = some ⟨2, .setConfCommand, "prop value"⟩ ∧
    Connected sampleWorld sampleFlags (some ⟨1⟩) ∧
    (main sampleWorld (Direct.impl sampleWorld) sampleFlags
      ["setconf", "gcfreq", "10m"]).trace =
      Event.call .setConfCommand ["gcfreq", "10m"] ::
        (Direct.setConfCommand sampleWorld (some ⟨1⟩) ["gcfreq", "10m"]).trace :=
  have hreg : commands.lookup "setconf" = some ⟨2, .setConfCommand, "prop value"⟩ := by decide
  have hconn : Connected sampleWorld sampleFlags (some ⟨1⟩) :=
    Or.inr ⟨by decide, ⟨1⟩, rfl, rfl⟩
  ⟨hreg, hconn,
    ((((main_arity_check sampleWorld (Direct.impl sampleWorld) sampleFlags "setconf"
      ⟨2, .setConfCommand, "prop value"⟩ ["gcfreq", "10m"] hreg).1
        (some ⟨1⟩) hconn).2.2.2.1 rfl).2 rfl).1⟩

/-- C1 as stated fails: with a couchbase server named that cannot be reached,
`setconf gcfreq 10m` has the argument count of its arity (2), yet the handler
is not called; and `setconf gcfreq` has a wrong count, yet no usage listing
is printed. -/
theorem main_arity_counterexample :
    commands.lookup "setconf" = some ⟨2, .setConfCommand, "prop value"⟩ ∧
    ((0 : Int) ≤ 2 ∧ ((["gcfreq", "10m"].length : Nat) : Int) = 2) ∧
    ¬ Invoked (main sampleWorld (Direct.impl sampleWorld) sampleFlagsUnreachable
      ["setconf", "gcfreq", "10m"]).trace .setConfCommand ["gcfreq", "10m"] ∧
    ¬ ((0 : Int) ≤ 2 ∧ ((["gcfreq"].length : Nat) : Int) = 2) ∧
    ¬ PrintsUsage sampleWorld (main sampleWorld (Direct.impl sampleWorld)
      sampleFlagsUnreachable ["setconf", "gcfreq"]).trace := by
  have h1 := main_unreachable_only sampleWorld (Direct.impl sampleWorld)
    sampleFlagsUnreachable "setconf" ["gcfreq", "10m"] ⟨"connection refused"⟩ (by decide) rfl
  have h2 := main_unreachable_only sampleWorld (Direct.impl sampleWorld)
    sampleFlagsUnreachable "setconf" ["gcfreq"] ⟨"connection refused"⟩ (by decide) rfl
  refine ⟨by decide, by decide, ?_, by decide, h2.2.2⟩
  intro hi
  exact h1.2.1 _ _ hi

/-- C7 (amended): the registry has exactly the five keys upload, ls, rm,
getconf and setconf.  Once the connection step of `main` has gone through,
`main` runs the handler of upload iff it is followed by at least 2 arguments,
of ls iff by exactly 1, of rm iff by at least 1, of getconf iff by none and
of setconf iff by exactly 2; on every other count it reports incorrect
arguments, prints the usage listing and exits with status 1 without calling a
handler.  When a couchbase server is named and cannot be reached, `main`
stops on the fatal connection error for each of the five commands and every
argument count. -/
theorem commands_table (w : World)
    (impl : Handler → Option Bucket → List String → Proc Unit)
    (fl : Flags) (rest : List String) :
    commands.length = 5 ∧
    (∀ name, (∃ cmd, commands.lookup name = some cmd) ↔
      name = "upload" ∨ name = "ls" ∨ name = "rm" ∨ name = "getconf" ∨ name = "setconf") ∧
    (∀ cb, Connected w fl cb →
      (RunsHandler (main w impl fl ("upload" :: rest)) impl .uploadCommand cb rest ↔
        2 ≤ rest.length) ∧
      (RunsHandler (main w impl fl ("ls" :: rest)) impl .lsCommand cb rest ↔
        rest.length = 1) ∧
      (RunsHandler (main w impl fl ("rm" :: rest)) impl .rmCommand cb rest ↔
        1 ≤ rest.length) ∧
      (RunsHandler (main w impl fl ("getconf" :: rest)) impl .getConfCommand cb rest ↔
        rest.length = 0) ∧
      (RunsHandler (main w impl fl ("setconf" :: rest)) impl .setConfCommand cb rest ↔
        rest.length = 2) ∧
      (¬ 2 ≤ rest.length →
        main w impl fl ("upload" :: rest) = incorrectArguments w "upload" ∧
        NoCall (main w impl fl ("upload" :: rest)).trace) ∧
      (¬ rest.length = 1 →
        main w impl fl ("ls" :: rest) = incorrectArguments w "ls" ∧
        NoCall (main w impl fl ("ls" :: rest)).trace) ∧
      (¬ 1 ≤ rest.length →
        main w impl fl ("rm" :: rest) = incorrectArguments w "rm" ∧
        NoCall (main w impl fl ("rm" :: rest)).trace) ∧
      (¬ rest.length = 0 →
        main w impl fl ("getconf" :: rest) = incorrectArguments w "getconf" ∧
        NoCall (main w impl fl ("getconf" :: rest)).trace) ∧
      (¬ rest.length = 2 →
        main w impl fl ("setconf" :: rest) = incorrectArguments w "setconf" ∧
        NoCall (main w impl fl ("setconf" :: rest)).trace)) ∧
    (∀ e name, fl.couchbaseServer ≠ "" →
      w.GetBucket fl.couchbaseServer "default" fl.couchbaseBucket = .error e →
      main w impl fl (name :: rest) =
        ⟨[Event.log ("Error connecting to couchbase: " ++ e.msg)], .error (.exit 1)⟩) := by
  have hu : commands.lookup "upload" = some ⟨-2, .uploadCommand,
      "[opts] /src/dir http://cbfs:8484/path/"⟩ := by decide
  have hl : commands.lookup "ls" = some ⟨1, .lsCommand, "http://cbfs:8484/some/path"⟩ := by
    decide
  have hr : commands.lookup "rm" = some ⟨-1, .rmCommand,
      "[-r] [-v] http://cbfs:8484/some/path"⟩ := by decide
  have hg : commands.lookup "getconf" = some ⟨0, .getConfCommand, ""⟩ := by decide
  have hs : commands.lookup "setconf" = some ⟨2, .setConfCommand, "prop value"⟩ := by decide
  have au : arityAccepts (-2) rest.length ↔ 2 ≤ rest.length := by
    unfold arityAccepts; omega
  have al : arityAccepts 1 rest.length ↔ rest.length = 1 := by
    unfold arityAccepts; omega
  have ar : arityAccepts (-1) rest.length ↔ 1 ≤ rest.length := by
    unfold arityAccepts; omega
  have ag : arityAccepts 0 rest.length ↔ rest.length = 0 := by
    unfold arityAccepts; omega
  have as : arityAccepts 2 rest.length ↔ rest.length = 2 := by
    unfold arityAccepts; omega
  refine ⟨rfl, commands_lookup_isSome, ?_, ?_⟩
  · intro cb hconn
    refine ⟨?_, ?_, ?_, ?_, ?_, ?_, ?_, ?_, ?_, ?_⟩
    · exact (main_runs_iff w impl fl _ _ rest cb hu hconn).trans au
    · exact (main_runs_iff w impl fl _ _ rest cb hl hconn).trans al
    · exact (main_runs_iff w impl fl _ _ rest cb hr hconn).trans ar
    · exact (main_runs_iff w impl fl _ _ rest cb hg hconn).trans ag
    · exact (main_runs_iff w impl fl _ _ rest cb hs hconn).trans as
    · intro h
      have := main_refuses w impl fl _ _ rest cb hu hconn (fun ha => h (au.mp ha))
      exact ⟨this.1, this.2.2.2⟩
    · intro h
      have := main_refuses w impl fl _ _ rest cb hl hconn (fun ha => h (al.mp ha))
      exact ⟨this.1, this.2.2.2⟩
    · intro h
      have := main_refuses w impl fl _ _ rest cb hr hconn (fun ha => h (ar.mp ha))
      exact ⟨this.1, this.2.2.2⟩
    · intro h
      have := main_refuses w impl fl _ _ rest cb hg hconn (fun ha => h (ag.mp ha))
      exact ⟨this.1, this.2.2.2⟩
    · intro h
      have := main_refuses w impl fl _ _ rest cb hs hconn (fun ha => h (as.mp ha))
      exact ⟨this.1, this.2.2.2⟩
  · intro e name hsrv hb
    exact (main_unreachable_only w impl fl name rest e hsrv hb).1

/-- With the reachable sample server named, `upload` followed by three
arguments passes, and `main` runs the upload handler on them. -/
theorem commands_table_witness :
    Connected sampleWorld sampleFlags (some ⟨1⟩) ∧
    RunsHandler (main sampleWorld (Direct.impl sampleWorld) sampleFlags
      ["upload", "a", "b", "http://cbfs:8484/d/"]) (Direct.impl sampleWorld) .uploadCommand
      (some ⟨1⟩) ["a", "b", "http://cbfs:8484/d/"] :=
  have hconn : Connected sampleWorld sampleFlags (some ⟨1⟩) :=
    Or.inr ⟨by decide, ⟨1⟩, rfl, rfl⟩
  ⟨hconn, ((commands_table sampleWorld (Direct.impl sampleWorld) sampleFlags
      ["a", "b", "http://cbfs:8484/d/"]).2.2.1 (some ⟨1⟩) hconn).1.2 (by decide)⟩

/-- C7 as stated fails: with a couchbase server named that cannot be reached,
`upload` followed by two arguments and `getconf` followed by none are not
accepted: `main` calls no handler and stops on the connection error. -/
theorem commands_table_counterexample :
    (2 ≤ ["/src/dir", "http://cbfs:8484/path/"].length ∧
      ¬ Invoked (main sampleWorld (Direct.impl sampleWorld) sampleFlagsUnreachable
        ["upload", "/src/dir", "http://cbfs:8484/path/"]).trace .uploadCommand
        ["/src/dir", "http://cbfs:8484/path/"]) ∧
    (([] : List String).length = 0 ∧
      main sampleWorld (Direct.impl sampleWorld) sampleFlagsUnreachable ["getconf"] =
        ⟨[Event.log "Error connecting to couchbase: connection refused"],
          .error (.exit 1)⟩) := by
  have h1 := main_unreachable_only sampleWorld (Direct.impl sampleWorld)
    sampleFlagsUnreachable "upload" ["/src/dir", "http://cbfs:8484/path/"]
    ⟨"connection refused"⟩ (by decide) rfl
  have h2 := main_unreachable_only sampleWorld (Direct.impl sampleWorld)
    sampleFlagsUnreachable "getconf" [] ⟨"connection refused"⟩ (by decide) rfl
  refine ⟨⟨by decide, fun hi => h1.2.1 _ _ hi⟩, rfl, ?_⟩
  rw [h2.1]
  rfl

/-! ## Handlers against the arities of the registry -/

/-- C10: under the arities of the registry the handlers of `cbfsclient.go` read
their arguments within bounds (`setConfCommand`, given exactly 2 arguments,
reads `args[0]` and `args[1]`; `getConfCommand` reads none).  The handlers of
`conf.go` do not: on no argument, which arity 0 and the empty hint of
`getconf` admit, `getConfCommand` reads `args[0]` out of range, and on two
arguments, which arity 2 and the hint `prop value` of `setconf` admit,
`setConfCommand` reads `args[2]` out of range once `getConfig` has returned;
they stay within bounds only from 1 and from 3 arguments on. -/
theorem handler_indexing (w : World) (cb : Option Bucket) :
    (∀ args, arityAccepts 2 args.length → NoPanic (Direct.setConfCommand w cb args)) ∧
    (∀ args, NoPanic (Direct.getConfCommand w cb args)) ∧
    commands.lookup "getconf" = some ⟨0, .getConfCommand, ""⟩ ∧
    arityAccepts 0 ([] : List String).length ∧
    Http.getConfCommand w [] = ⟨[], .error (.panic "index out of range")⟩ ∧
    commands.lookup "setconf" = some ⟨2, .setConfCommand, "prop value"⟩ ∧
    (∀ a b conf, (Http.getConfig w a).result = .ok conf →
      arityAccepts 2 [a, b].length ∧
      (Http.setConfCommand w [a, b]).result = .error (.panic "index out of range")) ∧
    Http.setConfCommand sampleWorld ["http://cbfs:8484/", "gcfreq"] =
      ⟨[Event.httpGet "http://cbfs:8484/.cbfs/config/"],
        .error (.panic "index out of range")⟩ ∧
    (∀ args, NoPanic (Http.getConfCommand w args) ↔ 1 ≤ args.length) ∧
    (∀ args, 3 ≤ args.length → NoPanic (Http.setConfCommand w args)) := by
  refine ⟨?_, Direct.getConfCommand_neverPanics w cb, by decide, by decide,
    Http.getConfCommand_nil w, by decide, ?_, rfl, ?_, Http.setConfCommand_noPanic w⟩
  · intro args ha
    have hlen : args.length = 2 := by
      unfold arityAccepts at ha
      omega
    obtain ⟨a, b, rfl⟩ := length_two args hlen
    exact Direct.setConfCommand_inBounds w cb a b
  · intro a b conf hc
    exact ⟨Or.inl ⟨by decide, rfl⟩, Http.setConfCommand_two w a b conf hc⟩
  · intro args
    constructor
    · intro hnp
      cases args with
      | nil =>
        exfalso
        apply hnp "index out of range"
        rw [Http.getConfCommand_nil]
        rfl
      | cons a as => simp
    · exact Http.getConfCommand_noPanic w args

end Cbfs
